import Mathlib

/-!
# Containerization: container bring-up (`xdu31/containerization`)

A shallow embedding of the Go sources

* `pkg/utils/tar.go`                (`Untar`)
* `pkg/containerization/mount.go`   (`PivotRoot`, `MountProc`, `PrepareRootFs`,
                                     `CheckContainerDir`)
* `pkg/containerization/network.go` (`Bridge`, `Veth`, `Host.Apply`,
                                     `Container.Apply`, `SetNetwork`, `WaitForNetwork`)
* `cmd/main.go`                     (the paths `main` hands to `PrepareRootFs`)

Go functions that touch the operating system are embedded as state-passing
functions `σ → result × σ` over a record of the primitives they call
(`os.*`, `syscall.*`, `netlink.*`, `net.*`, `time.*`).  A Go `error` is
`Option GoError` (`none` is `nil`); a Go `(T, error)` pair is
`Except GoError T`.  Calls to the zap logger have no effect on the results and
are left out.

The embedded functions are stated over an arbitrary machine `σ`.  Four
machines are given to run them on: one that records every call (`recordingOS`),
one that logs every call and answers by an arbitrary script (`scriptedNet`), a
model of a filesystem (`fsOS`) and a model of the kernel's network devices and
namespaces (`simNet`).
-/

namespace Containerization

/-! ## Errors -/

/-- Kernel error numbers that occur in the models below. -/
inductive Errno where
  | ENOENT | EACCES | ENOTDIR | EEXIST | EINVAL | EBUSY | ESRCH | ENODEV | EPERM
  | ENETUNREACH | EBADF | EOPNOTSUPP
  deriving DecidableEq, Repr

/-- Go error values.  `sys` is a bare kernel error number, `pathError` a
`*fs.PathError` with its operation, its path and the kernel error number it
wraps, `text` an error made by `fmt.Errorf` or `errors.Errorf`, `exit` a failed
child process, and `panicked` a run-time panic, which unwinds through every
caller exactly like an error returned at once. -/
inductive GoError where
  | sys (code : Errno)
  | pathError (op path : String) (code : Errno)
  | text (message : String)
  | exit (status : Nat)
  | panicked (message : String)
  deriving DecidableEq, Repr

deriving instance DecidableEq for Except

/-- Go `os.IsNotExist`: true exactly for an error that wraps `ENOENT`;
false for `nil` and for every other error. -/
def IsNotExist : Option GoError → Bool
  | some (GoError.sys Errno.ENOENT) => true
  | some (GoError.pathError _ _ Errno.ENOENT) => true
  | _ => false

/-! ## `path/filepath` (Unix) -/

/-- Splits a path at every `/`. -/
def splitSlash : List Char → List (List Char)
  | [] => [[]]
  | c :: cs =>
    if c = '/' then [] :: splitSlash cs
    else
      match splitSlash cs with
      | [] => [[c]]
      | w :: ws => (c :: w) :: ws

/-- One step of `filepath.Clean` over the stack of kept components (top first):
empty and `.` components are dropped, `..` removes the component before it, is
dropped at the root and is kept at the start of a relative path. -/
def cleanStep (rooted : Bool) (stack : List (List Char)) (c : List Char) :
    List (List Char) :=
  if c = [] ∨ c = ['.'] then stack
  else if c = ['.', '.'] then
    match stack with
    | [] => if rooted then [] else [c]
    | top :: rest => if top = ['.', '.'] then c :: stack else rest
  else c :: stack

/-- The components `filepath.Clean` keeps, in order. -/
def cleanComponents (p : List Char) : List (List Char) :=
  ((splitSlash p).foldl (cleanStep (p.head? = some '/')) []).reverse

/-- Go `filepath.Clean`. -/
def Clean (path : String) : String :=
  let rooted := path.data.head? = some '/'
  let body := String.mk (List.intercalate ['/'] (cleanComponents path.data))
  if rooted then "/" ++ body
  else if body = "" then "." else body

/-- Go `filepath.Join`: the elements from the first non-empty one on, joined
with `/` and cleaned; the empty string when every element is empty. -/
def Join : List String → String
  | [] => ""
  | e :: rest => if e ≠ "" then Clean (String.intercalate "/" (e :: rest)) else Join rest

/-! ## Constants of `mount.go` -/

def ContainerDir : String := "/var/tmp/containers"
def RootFsDir : String := "rootfs"
def ImageDir : String := "images"
def BaseImage : String := "busybox.tar"
def pivotRootDir : String := ".pivot_root"
def procDir : String := "proc"

/-- Mount flag `syscall.MS_BIND`. -/
def MS_BIND : Nat := 4096
/-- Mount flag `syscall.MS_REC`. -/
def MS_REC : Nat := 16384
/-- Unmount flag `syscall.MNT_DETACH`. -/
def MNT_DETACH : Nat := 2

/-! ## Operating-system primitives used by `mount.go` and `tar.go` -/

/-- The primitives of `os`, `syscall` and `os/exec` that the staging code
calls, over a state `σ` of the machine. -/
structure OS (σ : Type) where
  Mount : String → String → String → Nat → String → σ → Option GoError × σ
  MkdirAll : String → Nat → σ → Option GoError × σ
  PivotRoot : String → String → σ → Option GoError × σ
  Chdir : String → σ → Option GoError × σ
  Unmount : String → Nat → σ → Option GoError × σ
  RemoveAll : String → σ → Option GoError × σ
  Mkdir : String → Nat → σ → Option GoError × σ
  Stat : String → σ → Option GoError
  Start : List String → σ → Option GoError × σ
  Wait : List String → σ → Option GoError × σ

/-! ## `utils/tar.go` -/

/-- Go `strings.HasSuffix`. -/
def HasSuffix (s suffix : String) : Bool :=
  suffix.data.isSuffixOf s.data

/-- Go `utils.Untar`.  The message of the rejection is what `%d` prints for a
string argument. -/
def Untar {σ : Type} (os : OS σ) (srcTar destDir : String) (s : σ) : Option GoError × σ :=
  if !HasSuffix srcTar "tar" then
    (some (GoError.text ("Invalid tarBall name: %!d(string=" ++ srcTar ++ ")")), s)
  else
    let cmd := ["tar", "-C", destDir, "-xf", srcTar]
    match os.Start cmd s with
    | (some err, s) => (some err, s)
    | (none, s) => os.Wait cmd s

/-! ## `containerization/mount.go` -/

/-- Go `containerization.PivotRoot`. -/
def PivotRoot {σ : Type} (os : OS σ) (containerName : String) (s : σ) : Option GoError × σ :=
  let newRoot := Join [ContainerDir, RootFsDir, containerName]
  let putOld := Join [newRoot, pivotRootDir]
  match os.Mount newRoot newRoot "" (MS_BIND ||| MS_REC) "" s with
  | (some err, s) => (some err, s)
  | (none, s) =>
  match os.MkdirAll putOld 0o700 s with
  | (some err, s) => (some err, s)
  | (none, s) =>
  match os.PivotRoot newRoot putOld s with
  | (some err, s) => (some err, s)
  | (none, s) =>
  match os.Chdir "/" s with
  | (some err, s) => (some err, s)
  | (none, s) =>
  let putOld := Join ["/", pivotRootDir]
  match os.Unmount putOld MNT_DETACH s with
  | (some err, s) => (some err, s)
  | (none, s) =>
  match os.RemoveAll putOld s with
  | (some err, s) => (some err, s)
  | (none, s) => (none, s)

/-- Go `containerization.MountProc`; the result of `os.MkdirAll` is discarded. -/
def MountProc {σ : Type} (os : OS σ) (containerName : String) (s : σ) : Option GoError × σ :=
  let newRoot := Join [ContainerDir, RootFsDir, containerName]
  let target := Join [newRoot, procDir]
  let s := (os.MkdirAll target 0o755 s).2
  match os.Mount procDir target "proc" 0 "" s with
  | (some err, s) => (some err, s)
  | (none, s) => (none, s)

/-- Go `containerization.PrepareRootFs`. -/
def PrepareRootFs {σ : Type} (os : OS σ) (imagePath destRootFsDir : String) (s : σ) :
    Option GoError × σ :=
  match os.RemoveAll destRootFsDir s with
  | (some err, s) => (some err, s)
  | (none, s) =>
  match os.Mkdir destRootFsDir 0o775 s with
  | (some err, s) => (some err, s)
  | (none, s) => Untar os imagePath destRootFsDir s

/-- Go `containerization.CheckContainerDir`. -/
def CheckContainerDir {σ : Type} (os : OS σ) (containerDir : String) (s : σ) : Option GoError :=
  let err := os.Stat containerDir s
  if IsNotExist err then err
  else
    let rootFs := Join [containerDir, RootFsDir]
    let err := os.Stat rootFs s
    if IsNotExist err then err
    else
      let baseImageTar := Join [containerDir, ImageDir]
      let err := os.Stat baseImageTar s
      if IsNotExist err then err
      else none

/-! ## `cmd/main.go` -/

/-- The image path `main` passes to `PrepareRootFs`. -/
def main_imagePath (containerDir baseImageName : String) : String :=
  Join [containerDir, ImageDir, baseImageName]

/-- The destination directory `main` passes to `PrepareRootFs`. -/
def main_destRootFsDir (containerDir containerName : String) : String :=
  Join [containerDir, RootFsDir, containerName]

/-! ## A recording machine: every primitive succeeds and is written to a log -/

/-- One call of a primitive of `OS`, with its arguments. -/
inductive Call where
  | Mount (source target fstype : String) (flags : Nat) (data : String)
  | MkdirAll (path : String) (perm : Nat)
  | PivotRoot (newRoot putOld : String)
  | Chdir (dir : String)
  | Unmount (target : String) (flags : Nat)
  | RemoveAll (path : String)
  | Mkdir (path : String) (perm : Nat)
  | Start (argv : List String)
  | Wait (argv : List String)
  deriving DecidableEq, Repr

/-- The machine on which every call succeeds and is appended to the log. -/
def recordingOS : OS (List Call) where
  Mount := fun a b c d e log => (none, log ++ [Call.Mount a b c d e])
  MkdirAll := fun a b log => (none, log ++ [Call.MkdirAll a b])
  PivotRoot := fun a b log => (none, log ++ [Call.PivotRoot a b])
  Chdir := fun a log => (none, log ++ [Call.Chdir a])
  Unmount := fun a b log => (none, log ++ [Call.Unmount a b])
  RemoveAll := fun a log => (none, log ++ [Call.RemoveAll a])
  Mkdir := fun a b log => (none, log ++ [Call.Mkdir a b])
  Stat := fun _ _ => none
  Start := fun a log => (none, log ++ [Call.Start a])
  Wait := fun a log => (none, log ++ [Call.Wait a])

/-! ## A filesystem model -/

/-- A filesystem object: a directory or a regular file with its bytes. -/
inductive Node where
  | dir
  | file (content : List Nat)
  deriving DecidableEq, Repr

/-- A location: the components of a cleaned path, from the root. -/
abbrev Path := List String

/-- The location a path string names; relative names are taken from the root. -/
def pathOf (name : String) : Path :=
  (((splitSlash name.data).foldl (cleanStep true) []).reverse).map String.mk

/-- A filesystem state: the object at each location other than the root.
Ownership and permission bits are not part of the model: every operation is
done by a user who may do it. -/
abbrev FS := Path → Option Node

/-- The object at a location; the root is always a directory. -/
def FS.node (fs : FS) (p : Path) : Option Node :=
  if p = [] then some Node.dir else fs p

/-- Path resolution: every location from `done` down to the parent of
`done ++ rest` must be a directory; `ENOENT` when one is missing, `ENOTDIR`
when one is a regular file. -/
def FS.checkDirs (fs : FS) (done : Path) : Path → Option Errno
  | [] => none
  | c :: rest =>
    match fs.node done with
    | none => some Errno.ENOENT
    | some (Node.file _) => some Errno.ENOTDIR
    | some Node.dir => FS.checkDirs fs (done ++ [c]) rest

/-- Model of `os.Stat`; its error is a `*fs.PathError` that names the path. -/
def FS.stat (fs : FS) (name : String) : Option GoError :=
  match fs.checkDirs [] (pathOf name) with
  | some code => some (GoError.pathError "stat" name code)
  | none =>
    if fs.node (pathOf name) = none then some (GoError.pathError "stat" name Errno.ENOENT)
    else none

/-- Go `endsWithDot` of `os.RemoveAll`. -/
def endsWithDot (path : String) : Bool :=
  path = "." ∨ ['/', '.'].isSuffixOf path.data

/-- Model of `os.RemoveAll`: the empty name is accepted and does nothing, a
name ending in a dot is `EINVAL`, a regular file on the way is `ENOTDIR`, a
missing location is not an error, and otherwise the location and everything
beneath it is removed.  The root itself is refused. -/
def FS.removeAll (fs : FS) (name : String) : Option GoError × FS :=
  if name = "" then (none, fs)
  else if endsWithDot name then (some (GoError.pathError "RemoveAll" name Errno.EINVAL), fs)
  else if pathOf name = [] then (some (GoError.pathError "unlinkat" name Errno.EBUSY), fs)
  else
    match fs.checkDirs [] (pathOf name) with
    | some Errno.ENOENT => (none, fs)
    | some code => (some (GoError.pathError "unlinkat" name code), fs)
    | none => (none, fun q => if (pathOf name).isPrefixOf q then none else fs q)

/-- Model of `os.Mkdir`: the parent must resolve to a directory and the
location must be free. -/
def FS.mkdir (fs : FS) (name : String) : Option GoError × FS :=
  match fs.checkDirs [] (pathOf name) with
  | some code => (some (GoError.pathError "mkdir" name code), fs)
  | none =>
    if fs.node (pathOf name) ≠ none then (some (GoError.pathError "mkdir" name Errno.EEXIST), fs)
    else (none, fun q => if q = pathOf name then some Node.dir else fs q)

/-- Model of `os.MkdirAll`: creates each missing directory from `done` down
to `done ++ rest`. -/
def FS.mkdirAllFrom (fs : FS) (done : Path) : Path → Option GoError × FS
  | [] =>
    match fs.node done with
    | some (Node.file _) => (some (GoError.sys Errno.ENOTDIR), fs)
    | some Node.dir => (none, fs)
    | none => (none, fun q => if q = done then some Node.dir else fs q)
  | c :: rest =>
    match fs.node done with
    | some (Node.file _) => (some (GoError.sys Errno.ENOTDIR), fs)
    | some Node.dir => FS.mkdirAllFrom fs (done ++ [c]) rest
    | none =>
      FS.mkdirAllFrom (fun q => if q = done then some Node.dir else fs q) (done ++ [c]) rest

/-- The part of `q` below `p`, when `q` lies at or below `p`. -/
def stripPath : Path → Path → Option Path
  | [], q => some q
  | _ :: _, [] => none
  | a :: p, b :: q => if a = b then stripPath p q else none

/-- Writes the members of an archive below `dest`; a member replaces what is
at its location. -/
def FS.writeMembers (fs : FS) (dest : Path) (members : List (Path × Node)) : FS :=
  fun q =>
    match stripPath dest q with
    | none => fs q
    | some [] => fs q
    | some (c :: rel) =>
      match members.lookup (c :: rel) with
      | some n => some n
      | none => fs q

/-- Model of the child process `tar -C destDir -xf srcTar`: the destination
must be a directory and the archive a regular file; `extract` gives the
members an archive holds (or fails on bytes that are not an archive).  Any
other command line fails. -/
def FS.runTar (extract : List Nat → Option (List (Path × Node))) (fs : FS) :
    List String → Option GoError × FS
  | ["tar", "-C", destDir, "-xf", srcTar] =>
    match fs.stat destDir, fs.node (pathOf destDir) with
    | none, some Node.dir =>
      match fs.stat srcTar, fs.node (pathOf srcTar) with
      | none, some (Node.file bytes) =>
        match extract bytes with
        | some members => (none, fs.writeMembers (pathOf destDir) members)
        | none => (some (GoError.exit 2), fs)
      | _, _ => (some (GoError.exit 2), fs)
    | _, _ => (some (GoError.exit 2), fs)
  | _ => (some (GoError.exit 127), fs)

/-- The filesystem model as a machine.  It has no mount table: the mount-table
calls are refused with `EPERM`.  Starting a child process always succeeds and
the child does its work when it is waited for. -/
def fsOS (extract : List Nat → Option (List (Path × Node))) : OS FS where
  Mount := fun _ _ _ _ _ fs => (some (GoError.sys Errno.EPERM), fs)
  MkdirAll := fun name _ fs => fs.mkdirAllFrom [] (pathOf name)
  PivotRoot := fun _ _ fs => (some (GoError.sys Errno.EPERM), fs)
  Chdir := fun _ fs => (none, fs)
  Unmount := fun _ _ fs => (some (GoError.sys Errno.EPERM), fs)
  RemoveAll := fun name fs => fs.removeAll name
  Mkdir := fun name _ fs => fs.mkdir name
  Stat := fun name fs => fs.stat name
  Start := fun _ fs => (none, fs)
  Wait := fun argv fs => FS.runTar extract fs argv

/-- The filesystem that holds exactly the listed objects. -/
def FS.ofList (objects : List (Path × Node)) : FS := fun q => objects.lookup q

/-! ## Types of `network.go` -/

/-- Go `net.IP`: the octets of an address. -/
abbrev IP := List Nat

/-- Go `net.IPMask`. -/
abbrev IPMask := List Nat

/-- Go `net.IPNet`. -/
structure IPNet where
  IP : IP
  Mask : IPMask
  deriving DecidableEq, Repr

/-- Go `net.Interface` (the fields the code reads). -/
structure Interface where
  Index : Nat
  Name : String
  deriving DecidableEq, Repr

/-- Go `netlink.LinkAttrs` (the fields the code sets or reads); index 0 is
"not yet known" and makes netlink find the link by name. -/
structure LinkAttrs where
  Index : Nat
  Name : String
  deriving DecidableEq, Repr

/-- Go `netlink.Link`: the dynamic types a link value can have. -/
inductive Link where
  | Bridge (attrs : LinkAttrs)
  | Veth (attrs : LinkAttrs) (PeerName : String)
  | Device (attrs : LinkAttrs)
  deriving DecidableEq, Repr

/-- Go `Link.Attrs()`. -/
def Link.Attrs : Link → LinkAttrs
  | Link.Bridge a => a
  | Link.Veth a _ => a
  | Link.Device a => a

/-- Go `netlink.Addr` (its `IPNet`). -/
structure Addr where
  IPNet : IPNet
  deriving DecidableEq, Repr

/-- Go `netlink.Route` (the fields the code sets). -/
structure Route where
  Scope : Nat
  LinkIndex : Nat
  Gw : IP
  deriving DecidableEq, Repr

/-- Go `netlink.SCOPE_UNIVERSE`. -/
def SCOPE_UNIVERSE : Nat := 0

/-- An open `*os.File`, by its descriptor. -/
abbrev File := Nat

/-- Go `NetworkConfigInput`, without the logger, which is taken to be a usable
logger as the one `main` passes. -/
structure NetworkConfigInput where
  Pid : Int
  BridgeName : String
  BridgeAddress : String
  ContainerAddress : String
  VethNamePrefix : String
  deriving DecidableEq, Repr

/-- Go `NetworkConfig`. -/
structure NetworkConfig where
  BridgeName : String
  BridgeIP : IP
  ContainerIP : IP
  Subnet : IPNet
  VethNamePrefix : String
  deriving DecidableEq, Repr

/-- Go interface `Configurer`: its one method `Apply`. -/
abbrev Configurer (σ : Type) := NetworkConfig → Int → σ → Option GoError × σ

/-- Go interface `BridgeCreator`. -/
structure BridgeCreator (σ : Type) where
  Create : String → IP → IPNet → σ → Except GoError Interface × σ
  Attach : Interface → Interface → σ → Option GoError × σ

/-- Go interface `VethCreator`. -/
structure VethCreator (σ : Type) where
  Create : String → σ → Except GoError (Interface × Interface) × σ
  MoveToNetworkNamespace : Interface → Int → σ → Option GoError × σ

/-- Go struct `Host`. -/
structure Host (σ : Type) where
  BridgeCreator : BridgeCreator σ
  VethCreator : VethCreator σ

/-! ## Primitives used by `network.go` -/

/-- The primitives of `net`, `netlink`, `os`, `time` and of the namespace
execer that the network code calls, over a state `σ` of the machine.
`Exec f cb` is `(*netns.Execer).Exec`: it runs `cb` with the network namespace
of the calling thread switched to the one `f` is open on. -/
structure Net (σ : Type) where
  ParseCIDR : String → Except GoError (IP × IPNet)
  InterfaceByName : String → σ → Except GoError Interface
  Interfaces : σ → Except GoError (List Interface) × σ
  LinkAdd : Link → σ → Option GoError × σ
  AddrAdd : Link → Addr → σ → Option GoError × σ
  LinkSetUp : Link → σ → Option GoError × σ
  LinkByName : String → σ → Except GoError Link
  LinkSetMaster : Link → Link → σ → Option GoError × σ
  LinkSetNsPid : Link → Int → σ → Option GoError × σ
  RouteAdd : Route → σ → Option GoError × σ
  Open : String → σ → Except GoError File × σ
  Close : File → σ → σ
  Exec : File → (σ → Option GoError × σ) → σ → Option GoError × σ
  Now : σ → Int
  Sleep : Int → σ → σ

/-! ## `containerization/network.go` -/

/-- Go `interfaceExists`. -/
def interfaceExists {σ : Type} (net : Net σ) (name : String) (s : σ) : Bool :=
  match net.InterfaceByName name s with
  | .ok _ => true
  | .error _ => false

/-- Go `(*Bridge).Create`. -/
def Bridge.Create {σ : Type} (net : Net σ) (name : String) (ip : IP) (subnet : IPNet) (s : σ) :
    Except GoError Interface × σ :=
  if interfaceExists net name s then (net.InterfaceByName name s, s)
  else
    let linkAttrs : LinkAttrs := { Index := 0, Name := name }
    let link := Link.Bridge linkAttrs
    match net.LinkAdd link s with
    | (some err, s) => (.error err, s)
    | (none, s) =>
    let address : Addr := { IPNet := { IP := ip, Mask := subnet.Mask } }
    match net.AddrAdd link address s with
    | (some err, s) => (.error err, s)
    | (none, s) =>
    match net.LinkSetUp link s with
    | (some err, s) => (.error err, s)
    | (none, s) => (net.InterfaceByName name s, s)

/-- Go `(*Bridge).Attach`.  The type assertion `bridgeLink.(*netlink.Bridge)`
panics when the link found under the bridge name is not a bridge. -/
def Bridge.Attach {σ : Type} (net : Net σ) (bridge hostVeth : Interface) (s : σ) :
    Option GoError × σ :=
  match net.LinkByName bridge.Name s with
  | .error err => (some err, s)
  | .ok bridgeLink =>
  match net.LinkByName hostVeth.Name s with
  | .error err => (some err, s)
  | .ok hostVethLink =>
  match bridgeLink with
  | Link.Bridge _ => net.LinkSetMaster hostVethLink bridgeLink s
  | _ => (some (GoError.panicked "interface conversion: netlink.Link is not *netlink.Bridge"), s)

/-- Go `vethInterfacesByName`. -/
def vethInterfacesByName {σ : Type} (net : Net σ) (hostVethName containerVethName : String)
    (s : σ) : Except GoError (Interface × Interface) :=
  match net.InterfaceByName hostVethName s with
  | .error err => .error err
  | .ok hostVeth =>
  match net.InterfaceByName containerVethName s with
  | .error err => .error err
  | .ok containerVeth => .ok (hostVeth, containerVeth)

/-- Go `(*Veth).Create`. -/
def Veth.Create {σ : Type} (net : Net σ) (namePrefix : String) (s : σ) :
    Except GoError (Interface × Interface) × σ :=
  let hostVethName := namePrefix ++ "0"
  let containerVethName := namePrefix ++ "1"
  if interfaceExists net hostVethName s then
    (vethInterfacesByName net hostVethName containerVethName s, s)
  else
    let vethLinkAttrs : LinkAttrs := { Index := 0, Name := hostVethName }
    let veth := Link.Veth vethLinkAttrs containerVethName
    match net.LinkAdd veth s with
    | (some err, s) => (.error err, s)
    | (none, s) =>
    match net.LinkSetUp veth s with
    | (some err, s) => (.error err, s)
    | (none, s) => (vethInterfacesByName net hostVethName containerVethName s, s)

/-- Go `(*Veth).MoveToNetworkNamespace`. -/
def Veth.MoveToNetworkNamespace {σ : Type} (net : Net σ) (containerVeth : Interface) (pid : Int)
    (s : σ) : Option GoError × σ :=
  match net.LinkByName containerVeth.Name s with
  | .error err => (some err, s)
  | .ok containerVethLink => net.LinkSetNsPid containerVethLink pid s

/-- Go `NewBridge`, as a `BridgeCreator`. -/
def NewBridge {σ : Type} (net : Net σ) : BridgeCreator σ :=
  { Create := Bridge.Create net, Attach := Bridge.Attach net }

/-- Go `NewVeth`, as a `VethCreator`. -/
def NewVeth {σ : Type} (net : Net σ) : VethCreator σ :=
  { Create := Veth.Create net, MoveToNetworkNamespace := Veth.MoveToNetworkNamespace net }

/-- Go `NewHostConfigurer`. -/
def NewHostConfigurer {σ : Type} (bridgeCreator : BridgeCreator σ) (vethCreator : VethCreator σ) :
    Host σ :=
  { BridgeCreator := bridgeCreator, VethCreator := vethCreator }

/-- Go `IP.String` for the four-octet addresses of the models below:
dotted decimal. -/
def IP.String (ip : IP) : String :=
  String.intercalate "." (ip.map toString)

/-- The callback `cbFunc` that `(*Container).Apply` hands to the execer. -/
def Container.cbFunc {σ : Type} (net : Net σ) (netConfig : NetworkConfig) (s : σ) :
    Option GoError × σ :=
  let containerVethName := netConfig.VethNamePrefix ++ "1"
  match net.LinkByName containerVethName s with
  | .error _ => (some (GoError.text ("Container veth '" ++ containerVethName ++ "' not found")), s)
  | .ok link =>
  let addr : Addr := { IPNet := { IP := netConfig.ContainerIP, Mask := netConfig.Subnet.Mask } }
  match net.AddrAdd link addr s with
  | (some _, s) =>
    (some (GoError.text ("Unable to assign IP address '" ++ IP.String netConfig.ContainerIP
      ++ "' to " ++ containerVethName)), s)
  | (none, s) =>
  match net.LinkSetUp link s with
  | (some err, s) => (some err, s)
  | (none, s) =>
  let route : Route :=
    { Scope := SCOPE_UNIVERSE, LinkIndex := link.Attrs.Index, Gw := netConfig.BridgeIP }
  net.RouteAdd route s

/-- Go `(*Container).Apply`.  `defer netnsFile.Close()` is registered before
the error of `os.Open` is looked at: when the open failed the file is `nil`
and the deferred `Close` returns `ErrInvalid` without any system call; when it
succeeded the deferred `Close` runs after the execer has returned. -/
def Container.Apply {σ : Type} (net : Net σ) (netConfig : NetworkConfig) (pid : Int) (s : σ) :
    Option GoError × σ :=
  match net.Open ("/proc/" ++ toString pid ++ "/ns/net") s with
  | (.error _, s) =>
    (some (GoError.text ("Unable to find network namespace for process with pid '"
      ++ toString pid ++ "'")), s)
  | (.ok netnsFile, s) =>
    match net.Exec netnsFile (Container.cbFunc net netConfig) s with
    | (r, s) => (r, net.Close netnsFile s)

/-- Go `(*Host).Apply`. -/
def Host.Apply {σ : Type} (h : Host σ) (netConfig : NetworkConfig) (pid : Int) (s : σ) :
    Option GoError × σ :=
  match h.BridgeCreator.Create netConfig.BridgeName netConfig.BridgeIP netConfig.Subnet s with
  | (.error err, s) => (some err, s)
  | (.ok bridge, s) =>
  match h.VethCreator.Create netConfig.VethNamePrefix s with
  | (.error err, s) => (some err, s)
  | (.ok (hostVeth, containerVeth), s) =>
  match h.BridgeCreator.Attach bridge hostVeth s with
  | (some err, s) => (some err, s)
  | (none, s) =>
  match h.VethCreator.MoveToNetworkNamespace containerVeth pid s with
  | (some err, s) => (some err, s)
  | (none, s) => (none, s)

/-- The body of Go `SetNetwork` from the first `net.ParseCIDR` on, for given
host and container configurers. -/
def SetNetworkWith {σ : Type} (ParseCIDR : String → Except GoError (IP × IPNet))
    (hostConfigurer containerConfigurer : Configurer σ) (configInput : NetworkConfigInput)
    (s : σ) : Option GoError × σ :=
  match ParseCIDR configInput.BridgeAddress with
  | .error err => (some err, s)
  | .ok (bridgeIP, bridgeSubnet) =>
  match ParseCIDR configInput.ContainerAddress with
  | .error err => (some err, s)
  | .ok (containerIP, _) =>
  let netConfig : NetworkConfig :=
    { BridgeName := configInput.BridgeName
      BridgeIP := bridgeIP
      ContainerIP := containerIP
      Subnet := bridgeSubnet
      VethNamePrefix := configInput.VethNamePrefix }
  match hostConfigurer netConfig configInput.Pid s with
  | (some err, s) => (some err, s)
  | (none, s) =>
  match containerConfigurer netConfig configInput.Pid s with
  | (some err, s) => (some err, s)
  | (none, s) => (none, s)

/-- Go `SetNetwork`: the body above with the configurers it constructs, the
host configurer over `NewBridge()` and `NewVeth()` and the container
configurer over the namespace execer. -/
def SetNetwork {σ : Type} (net : Net σ) (configInput : NetworkConfigInput) (s : σ) :
    Option GoError × σ :=
  let bridgeCreator := NewBridge net
  let vethCreator := NewVeth net
  let hostConfigurer := NewHostConfigurer bridgeCreator vethCreator
  SetNetworkWith net.ParseCIDR (Host.Apply hostConfigurer) (Container.Apply net) configInput s

/-- Go `time.Second`, in nanoseconds. -/
def Second : Int := 1000000000

/-- The `maxWait` of `WaitForNetwork`. -/
def maxWait : Int := Second * 3

/-- The `checkInterval` of `WaitForNetwork`. -/
def checkInterval : Int := Second

/-- The `for` loop of Go `WaitForNetwork`, run for at most `fuel` polls;
`none` when the polls are used up before the loop has returned. -/
def WaitForNetwork.loop {σ : Type} (net : Net σ) (timeStarted : Int) :
    Nat → σ → Option (Option GoError × σ)
  | 0, _ => none
  | fuel + 1, s =>
    match net.Interfaces s with
    | (.error err, s) => some (some err, s)
    | (.ok interfaces, s) =>
      if interfaces.length > 1 then some (none, s)
      else if net.Now s - timeStarted > maxWait then
        some (some (GoError.text "Timeout after 3s waiting for network"), s)
      else WaitForNetwork.loop net timeStarted fuel (net.Sleep checkInterval s)

/-- Go `WaitForNetwork`, run for at most `fuel` polls. -/
def WaitForNetwork {σ : Type} (net : Net σ) (fuel : Nat) (s : σ) : Option (Option GoError × σ) :=
  let timeStarted := net.Now s
  WaitForNetwork.loop net timeStarted fuel s

/-! ## Go `net.ParseCIDR`, IPv4 -/

/-- The value of a string of decimal digits; `none` when the string is empty
or holds anything else. -/
def digitsValue (cs : List Char) : Option Nat :=
  if cs ≠ [] ∧ cs.all Char.isDigit then
    some (cs.foldl (fun n c => 10 * n + (c.toNat - '0'.toNat)) 0)
  else none

/-- One field of a dotted IPv4 address: decimal, at most 255, and with no
leading zero unless it is the single digit `0`. -/
def parseOctet (cs : List Char) : Option Nat :=
  match digitsValue cs with
  | none => none
  | some n => if (cs.length > 1 ∧ cs.head? = some '0') ∨ n > 255 then none else some n

/-- The text before and the text after the first `/`. -/
def splitAtSlash : List Char → Option (List Char × List Char)
  | [] => none
  | c :: cs =>
    if c = '/' then some ([], cs)
    else
      match splitAtSlash cs with
      | none => none
      | some (a, b) => some (c :: a, b)

/-- Octet `k` of Go `net.CIDRMask(ones, 32)`. -/
def maskOctet (ones k : Nat) : Nat :=
  256 - 2 ^ (8 - min 8 (ones - 8 * k))

/-- Go `net.CIDRMask(ones, 32)`. -/
def CIDRMask (ones : Nat) : IPMask :=
  [maskOctet ones 0, maskOctet ones 1, maskOctet ones 2, maskOctet ones 3]

/-- Go `IP.Mask`. -/
def IP.Mask (ip : IP) (mask : IPMask) : IP :=
  List.zipWith (fun a m => a &&& m) ip mask

/-- Go `(*IPNet).Contains`. -/
def IPNet.Contains (n : IPNet) (ip : Containerization.IP) : Bool :=
  ip.length = n.IP.length ∧ IP.Mask n.IP n.Mask = IP.Mask ip n.Mask

/-- Go `net.ParseCIDR` on IPv4 input `a.b.c.d/len`: the address (in its
four-octet form), and the network made of the masked address and the mask.  Go also accepts IPv6 text,
which this model rejects; the code under study is stated over an arbitrary
parser and this one serves as the instance for IPv4 input. -/
def ParseCIDR (s : String) : Except GoError (IP × IPNet) :=
  let bad : Except GoError (IP × IPNet) := .error (GoError.text ("invalid CIDR address: " ++ s))
  match splitAtSlash s.data with
  | none => bad
  | some (addr, mask) =>
    match (splitSlash (addr.map (fun c => if c = '.' then '/' else if c = '/' then '.' else c))).map
        parseOctet with
    | [some a, some b, some c, some d] =>
      match digitsValue mask with
      | none => bad
      | some n =>
        if n > 32 then bad
        else .ok ([a, b, c, d], { IP := IP.Mask [a, b, c, d] (CIDRMask n), Mask := CIDRMask n })
    | _ => bad

/-! ## A model of the kernel's network devices -/

/-- The kind of a network device. -/
inductive DevKind where
  | bridge | veth | other
  deriving DecidableEq, Repr

/-- A network device: the namespace it lives in, its index and name, its
kind, whether it is up, its addresses and the index of its master (0: none). -/
structure Dev where
  Ns : Nat
  Index : Nat
  Name : String
  Kind : DevKind
  Up : Bool
  Addrs : List IPNet
  Master : Nat
  deriving DecidableEq, Repr

/-- The state of the machine as the network code sees it: the devices of all
network namespaces, the network namespace of each process, the namespace of
the calling thread, the next free device index and descriptor, the open
namespace files, the routes of each namespace and the monotonic clock. -/
structure World where
  devs : List Dev
  procs : List (Int × Nat)
  current : Nat
  nextIndex : Nat
  nextFd : Nat
  files : List (File × Nat)
  routes : List (Nat × Route)
  clock : Int
  deriving DecidableEq, Repr

/-- The device of the current namespace with the given name. -/
def World.byName (w : World) (name : String) : Option Dev :=
  w.devs.find? (fun d => d.Ns = w.current ∧ d.Name = name)

/-- The device of the current namespace with the given index. -/
def World.byIndex (w : World) (index : Nat) : Option Dev :=
  w.devs.find? (fun d => d.Ns = w.current ∧ d.Index = index)

/-- How netlink finds the device a link value stands for: by index, or by
name when the index is not set. -/
def World.resolve (w : World) (l : Link) : Option Dev :=
  if l.Attrs.Index = 0 then w.byName l.Attrs.Name else w.byIndex l.Attrs.Index

/-- Changes the device with the given index. -/
def World.modify (w : World) (index : Nat) (f : Dev → Dev) : World :=
  { w with devs := w.devs.map (fun d => if d.Index = index then f d else d) }

/-- The link value netlink returns for a device; the kernel does not report
the peer of a veth. -/
def Dev.toLink (d : Dev) : Link :=
  match d.Kind with
  | DevKind.bridge => Link.Bridge { Index := d.Index, Name := d.Name }
  | DevKind.veth => Link.Veth { Index := d.Index, Name := d.Name } ""
  | DevKind.other => Link.Device { Index := d.Index, Name := d.Name }

/-- The `net.Interface` of a device. -/
def Dev.toInterface (d : Dev) : Interface :=
  { Index := d.Index, Name := d.Name }

/-- A new device of the current namespace: down, without address or master. -/
def World.newDev (w : World) (index : Nat) (name : String) (kind : DevKind) : Dev :=
  { Ns := w.current, Index := index, Name := name, Kind := kind, Up := false, Addrs := [],
    Master := 0 }

/-- Model of `netlink.LinkAdd`: a name that is taken in the current namespace
is `EEXIST`; a bridge adds one device, a veth adds the device and its peer. -/
def World.linkAdd (w : World) : Link → Option GoError × World
  | Link.Bridge a =>
    if (w.byName a.Name).isSome then (some (GoError.sys Errno.EEXIST), w)
    else
      (none, { w with devs := w.devs ++ [w.newDev w.nextIndex a.Name DevKind.bridge]
                      nextIndex := w.nextIndex + 1 })
  | Link.Veth a peerName =>
    if (w.byName a.Name).isSome ∨ (w.byName peerName).isSome ∨ a.Name = peerName then
      (some (GoError.sys Errno.EEXIST), w)
    else
      (none, { w with devs := w.devs ++ [w.newDev w.nextIndex a.Name DevKind.veth,
                                         w.newDev (w.nextIndex + 1) peerName DevKind.veth]
                      nextIndex := w.nextIndex + 2 })
  | Link.Device _ => (some (GoError.sys Errno.EOPNOTSUPP), w)

/-- Model of `netlink.AddrAdd`. -/
def World.addrAdd (w : World) (l : Link) (addr : Addr) : Option GoError × World :=
  match w.resolve l with
  | none => (some (GoError.sys Errno.ENODEV), w)
  | some d =>
    if addr.IPNet ∈ d.Addrs then (some (GoError.sys Errno.EEXIST), w)
    else (none, w.modify d.Index (fun d => { d with Addrs := d.Addrs ++ [addr.IPNet] }))

/-- Model of `netlink.LinkSetUp`. -/
def World.linkSetUp (w : World) (l : Link) : Option GoError × World :=
  match w.resolve l with
  | none => (some (GoError.sys Errno.ENODEV), w)
  | some d => (none, w.modify d.Index (fun d => { d with Up := true }))

/-- Model of `netlink.LinkSetMaster`. -/
def World.linkSetMaster (w : World) (l master : Link) : Option GoError × World :=
  match w.resolve l, w.resolve master with
  | some d, some m => (none, w.modify d.Index (fun d => { d with Master := m.Index }))
  | _, _ => (some (GoError.sys Errno.ENODEV), w)

/-- Model of `netlink.LinkSetNsPid`: the device leaves the current namespace
for the network namespace of the process; there it is down, without address
and without master.  `ESRCH` when there is no such process, `EEXIST` when the
target namespace has a device of that name; nothing happens when the process
lives in the current namespace. -/
def World.linkSetNsPid (w : World) (l : Link) (pid : Int) : Option GoError × World :=
  match w.resolve l with
  | none => (some (GoError.sys Errno.ENODEV), w)
  | some d =>
    match w.procs.lookup pid with
    | none => (some (GoError.sys Errno.ESRCH), w)
    | some ns =>
      if ns = w.current then (none, w)
      else if w.devs.any (fun e => e.Ns = ns ∧ e.Name = d.Name) then
        (some (GoError.sys Errno.EEXIST), w)
      else
        (none, w.modify d.Index (fun d => { d with Ns := ns, Up := false, Addrs := [],
                                                   Master := 0 }))

/-- Model of `netlink.RouteAdd` for a route through a gateway: the device must
be up and the gateway must lie in the network of one of its addresses. -/
def World.routeAdd (w : World) (r : Route) : Option GoError × World :=
  match w.byIndex r.LinkIndex with
  | none => (some (GoError.sys Errno.ENODEV), w)
  | some d =>
    if d.Up ∧ d.Addrs.any (fun a => IP.Mask a.IP a.Mask = IP.Mask r.Gw a.Mask) then
      (none, { w with routes := w.routes ++ [(w.current, r)] })
    else (some (GoError.sys Errno.ENETUNREACH), w)

/-- Model of `os.Open` on `/proc/<pid>/ns/net`. -/
def World.openNs (w : World) (path : String) : Except GoError File × World :=
  match w.procs.find? (fun p => path = "/proc/" ++ toString p.1 ++ "/ns/net") with
  | none => (.error (GoError.sys Errno.ENOENT), w)
  | some p => (.ok w.nextFd, { w with files := w.files ++ [(w.nextFd, p.2)]
                                      nextFd := w.nextFd + 1 })

/-- Model of the namespace execer: the callback runs with the current
namespace set to the one the file is open on, and the namespace of before is
restored when it has returned. -/
def World.exec (w : World) (f : File) (cb : World → Option GoError × World) :
    Option GoError × World :=
  match w.files.lookup f with
  | none => (some (GoError.sys Errno.EBADF), w)
  | some ns =>
    match cb { w with current := ns } with
    | (r, w') => (r, { w' with current := w.current })

/-- The kernel model as a machine, with the IPv4 model of `net.ParseCIDR`. -/
def simNet : Net World where
  ParseCIDR := ParseCIDR
  InterfaceByName := fun name w =>
    match w.byName name with
    | some d => .ok d.toInterface
    | none => .error (GoError.text "route ip+net: no such network interface")
  Interfaces := fun w =>
    (.ok ((w.devs.filter (fun d => d.Ns = w.current)).map Dev.toInterface), w)
  LinkAdd := fun l w => w.linkAdd l
  AddrAdd := fun l a w => w.addrAdd l a
  LinkSetUp := fun l w => w.linkSetUp l
  LinkByName := fun name w =>
    match w.byName name with
    | some d => .ok d.toLink
    | none => .error (GoError.text "Link not found")
  LinkSetMaster := fun l m w => w.linkSetMaster l m
  LinkSetNsPid := fun l pid w => w.linkSetNsPid l pid
  RouteAdd := fun r w => w.routeAdd r
  Open := fun path w => w.openNs path
  Close := fun f w => { w with files := w.files.filter (fun e => e.1 ≠ f) }
  Exec := fun f cb w => w.exec f cb
  Now := fun w => w.clock
  Sleep := fun d w => { w with clock := w.clock + d }

/-- A host with the loopback device and one ethernet device in namespace 0,
and the process 4242 in its own network namespace 1 that holds only a
loopback device. -/
def world0 : World :=
  { devs := [{ Ns := 0, Index := 1, Name := "lo", Kind := DevKind.other, Up := true,
               Addrs := [], Master := 0 },
             { Ns := 0, Index := 2, Name := "eth0", Kind := DevKind.other, Up := true,
               Addrs := [], Master := 0 },
             { Ns := 1, Index := 3, Name := "lo", Kind := DevKind.other, Up := false,
               Addrs := [], Master := 0 }]
    procs := [(4242, 1)]
    current := 0
    nextIndex := 4
    nextFd := 3
    files := []
    routes := []
    clock := 0 }

/-- The network configuration `main` asks for. -/
def mainConfig : NetworkConfig :=
  { BridgeName := "brg0"
    BridgeIP := [10, 10, 10, 1]
    ContainerIP := [10, 10, 10, 2]
    Subnet := { IP := [10, 10, 10, 0], Mask := [255, 255, 255, 0] }
    VethNamePrefix := "veth" }

/-- The `NetworkConfigInput` of `main` for a child with the given pid. -/
def mainInput (pid : Int) : NetworkConfigInput :=
  { Pid := pid
    BridgeName := "brg0"
    VethNamePrefix := "veth"
    BridgeAddress := "10.10.10.1/24"
    ContainerAddress := "10.10.10.2/24" }

/-- The host configurer `SetNetwork` builds, on the kernel model. -/
def simHost : Host World := NewHostConfigurer (NewBridge simNet) (NewVeth simNet)

/-! ## Observing the steps of the network setup -/

/-- The steps of the network setup: the four methods of the creators that
`Host.Apply` calls, and the container configurer. -/
inductive Step where
  | BridgeCreate | VethCreate | Attach | MoveToNetworkNamespace | ContainerApply
  deriving DecidableEq, Repr

/-- The order in which a complete network setup runs the steps. -/
def stepOrder : List Step :=
  [Step.BridgeCreate, Step.VethCreate, Step.Attach, Step.MoveToNetworkNamespace,
   Step.ContainerApply]

/-- One call of a step, with the arguments it was called with. -/
inductive StepCall where
  | BridgeCreate (name : String) (ip : IP) (subnet : IPNet)
  | VethCreate (namePrefix : String)
  | Attach (bridge hostVeth : Interface)
  | MoveToNetworkNamespace (containerVeth : Interface) (pid : Int)
  | ContainerApply (netConfig : NetworkConfig) (pid : Int)
  deriving DecidableEq, Repr

/-- Which step a call is a call of. -/
def StepCall.kind : StepCall → Step
  | StepCall.BridgeCreate _ _ _ => Step.BridgeCreate
  | StepCall.VethCreate _ => Step.VethCreate
  | StepCall.Attach _ _ => Step.Attach
  | StepCall.MoveToNetworkNamespace _ _ => Step.MoveToNetworkNamespace
  | StepCall.ContainerApply _ _ => Step.ContainerApply

/-- What a step returned: an error, the bridge interface (bridge `Create`),
the host end and the container end of the veth pair (veth `Create`), or
nothing but success. -/
inductive StepResult where
  | failed (err : GoError)
  | bridge (created : Interface)
  | veths (hostVeth containerVeth : Interface)
  | done
  deriving DecidableEq, Repr

/-- The error a step returned (`none`: success). -/
def StepResult.err : StepResult → Option GoError
  | StepResult.failed err => some err
  | _ => none

/-- The result of a step that returns only an error. -/
def StepResult.ofError : Option GoError → StepResult
  | some err => StepResult.failed err
  | none => StepResult.done

/-- The result of the bridge `Create`. -/
def StepResult.ofBridge : Except GoError Interface → StepResult
  | .error err => StepResult.failed err
  | .ok created => StepResult.bridge created

/-- The result of the veth `Create`. -/
def StepResult.ofVeths : Except GoError (Interface × Interface) → StepResult
  | .error err => StepResult.failed err
  | .ok (hostVeth, containerVeth) => StepResult.veths hostVeth containerVeth

/-- One step that ran: the call with its arguments, the state of the machine
it was called in, what it returned, and the state of the machine it left. -/
structure StepEntry (σ : Type) where
  call : StepCall
  before : σ
  result : StepResult
  after : σ

/-- Which step an entry is of. -/
def StepEntry.step {σ : Type} (e : StepEntry σ) : Step := e.call.kind

/-- The error the step of an entry returned (`none`: success). -/
def StepEntry.err {σ : Type} (e : StepEntry σ) : Option GoError := e.result.err

/-- A bridge creator that behaves like `b` and writes each call to a log. -/
def BridgeCreator.logged {σ : Type} (b : BridgeCreator σ) :
    BridgeCreator (σ × List (StepEntry σ)) where
  Create := fun name ip subnet st =>
    match b.Create name ip subnet st.1 with
    | (r, s) =>
      (r, (s, st.2 ++ [{ call := StepCall.BridgeCreate name ip subnet, before := st.1,
                         result := StepResult.ofBridge r, after := s }]))
  Attach := fun bridge hostVeth st =>
    match b.Attach bridge hostVeth st.1 with
    | (r, s) =>
      (r, (s, st.2 ++ [{ call := StepCall.Attach bridge hostVeth, before := st.1,
                         result := StepResult.ofError r, after := s }]))

/-- A veth creator that behaves like `v` and writes each call to a log. -/
def VethCreator.logged {σ : Type} (v : VethCreator σ) :
    VethCreator (σ × List (StepEntry σ)) where
  Create := fun namePrefix st =>
    match v.Create namePrefix st.1 with
    | (r, s) =>
      (r, (s, st.2 ++ [{ call := StepCall.VethCreate namePrefix, before := st.1,
                         result := StepResult.ofVeths r, after := s }]))
  MoveToNetworkNamespace := fun containerVeth pid st =>
    match v.MoveToNetworkNamespace containerVeth pid st.1 with
    | (r, s) =>
      (r, (s, st.2 ++ [{ call := StepCall.MoveToNetworkNamespace containerVeth pid,
                         before := st.1, result := StepResult.ofError r, after := s }]))

/-- A container configurer that behaves like `c` and writes each call to a log. -/
def Configurer.loggedStep {σ : Type} (c : Configurer σ) : Configurer (σ × List (StepEntry σ)) :=
  fun netConfig pid st =>
    match c netConfig pid st.1 with
    | (r, s) =>
      (r, (s, st.2 ++ [{ call := StepCall.ContainerApply netConfig pid, before := st.1,
                         result := StepResult.ofError r, after := s }]))

/-- Which of the two configurers of `SetNetwork` was invoked. -/
inductive Which where
  | host | container
  deriving DecidableEq, Repr

/-- One invocation of a configurer, with its arguments. -/
structure Invocation where
  which : Which
  netConfig : NetworkConfig
  pid : Int
  deriving DecidableEq, Repr

/-- A configurer that behaves like `c` and writes each invocation to a log. -/
def Configurer.logged {σ : Type} (which : Which) (c : Configurer σ) :
    Configurer (σ × List Invocation) :=
  fun netConfig pid st =>
    match c netConfig pid st.1 with
    | (r, s) => (r, (s, st.2 ++ [{ which := which, netConfig := netConfig, pid := pid }]))

/-! ## A scripted machine: every primitive is logged, its outcome is arbitrary -/

/-- One call of a state-changing primitive of `Net`; `ExecReturn` marks the
return of the callback of an `Exec`. -/
inductive NetCall where
  | LinkAdd (l : Link)
  | AddrAdd (l : Link) (a : Addr)
  | LinkSetUp (l : Link)
  | LinkSetMaster (l master : Link)
  | LinkSetNsPid (l : Link) (pid : Int)
  | RouteAdd (r : Route)
  | Open (path : String)
  | Close (f : File)
  | Exec (f : File)
  | ExecReturn
  | Sleep (d : Int)
  deriving DecidableEq, Repr

/-- What the machine answers, as a function of the calls made so far (the
last one being the call that is answered). -/
structure Script where
  parse : String → Except GoError (IP × IPNet)
  err : List NetCall → Option GoError
  file : List NetCall → File
  iface : String → List NetCall → Except GoError Interface
  ifaces : List NetCall → Except GoError (List Interface)
  link : String → List NetCall → Except GoError Link
  now : List NetCall → Int

/-- The machine that logs every state-changing call and answers by the script.
Its `Exec` runs the callback unless the script makes the execer itself fail. -/
def scriptedNet (o : Script) : Net (List NetCall) where
  ParseCIDR := o.parse
  InterfaceByName := o.iface
  Interfaces := fun log => (o.ifaces log, log)
  LinkAdd := fun l log => (o.err (log ++ [NetCall.LinkAdd l]), log ++ [NetCall.LinkAdd l])
  AddrAdd := fun l a log => (o.err (log ++ [NetCall.AddrAdd l a]), log ++ [NetCall.AddrAdd l a])
  LinkSetUp := fun l log => (o.err (log ++ [NetCall.LinkSetUp l]), log ++ [NetCall.LinkSetUp l])
  LinkByName := o.link
  LinkSetMaster := fun l m log =>
    (o.err (log ++ [NetCall.LinkSetMaster l m]), log ++ [NetCall.LinkSetMaster l m])
  LinkSetNsPid := fun l pid log =>
    (o.err (log ++ [NetCall.LinkSetNsPid l pid]), log ++ [NetCall.LinkSetNsPid l pid])
  RouteAdd := fun r log => (o.err (log ++ [NetCall.RouteAdd r]), log ++ [NetCall.RouteAdd r])
  Open := fun path log =>
    match o.err (log ++ [NetCall.Open path]) with
    | some err => (.error err, log ++ [NetCall.Open path])
    | none => (.ok (o.file (log ++ [NetCall.Open path])), log ++ [NetCall.Open path])
  Close := fun f log => log ++ [NetCall.Close f]
  Exec := fun f cb log =>
    match o.err (log ++ [NetCall.Exec f]) with
    | some err => (some err, log ++ [NetCall.Exec f])
    | none =>
      match cb (log ++ [NetCall.Exec f]) with
      | (r, log') => (r, log' ++ [NetCall.ExecReturn])
  Now := o.now
  Sleep := fun d log => log ++ [NetCall.Sleep d]

/-- A filesystem in which `/tmp/c` is a regular file. -/
def fsFileAsDir : FS := FS.ofList [(["tmp"], Node.dir), (["tmp", "c"], Node.file [])]

/-- A filesystem in which `/tmp/c` is an empty directory. -/
def fsEmptyDir : FS := FS.ofList [(["tmp"], Node.dir), (["tmp", "c"], Node.dir)]

/-- A machine of which only the answers of `os.Stat` are given; every other
primitive is refused. -/
def statOS (stat : String → Option GoError) : OS Unit where
  Mount := fun _ _ _ _ _ u => (some (GoError.sys Errno.EPERM), u)
  MkdirAll := fun _ _ u => (some (GoError.sys Errno.EPERM), u)
  PivotRoot := fun _ _ u => (some (GoError.sys Errno.EPERM), u)
  Chdir := fun _ u => (some (GoError.sys Errno.EPERM), u)
  Unmount := fun _ _ u => (some (GoError.sys Errno.EPERM), u)
  RemoveAll := fun _ u => (some (GoError.sys Errno.EPERM), u)
  Mkdir := fun _ _ u => (some (GoError.sys Errno.EPERM), u)
  Stat := fun name _ => stat name
  Start := fun _ u => (some (GoError.sys Errno.EPERM), u)
  Wait := fun _ u => (some (GoError.sys Errno.EPERM), u)

/-- The answers of `os.Stat` where `/tmp/c` exists and the user may not search
it: the directory itself can be stat'ed, nothing inside it can. -/
def statUnsearchable (name : String) : Option GoError :=
  if name = "/tmp/c" then none else some (GoError.pathError "stat" name Errno.EACCES)

/-- An input whose bridge address is not a CIDR string. -/
def badBridgeInput : NetworkConfigInput :=
  { Pid := 4242
    BridgeName := "brg0"
    VethNamePrefix := "veth"
    BridgeAddress := "not-an-ip"
    ContainerAddress := "10.10.10.2/24" }

/-- An input whose container address is the bridge address. -/
def sameAddressInput : NetworkConfigInput :=
  { Pid := 4242
    BridgeName := "brg0"
    VethNamePrefix := "veth"
    BridgeAddress := "10.10.10.1/24"
    ContainerAddress := "10.10.10.1/24" }

/-- An input whose container address lies outside the network of the bridge. -/
def otherSubnetInput : NetworkConfigInput :=
  { Pid := 4242
    BridgeName := "brg0"
    VethNamePrefix := "veth"
    BridgeAddress := "10.10.10.1/24"
    ContainerAddress := "192.168.1.2/24" }

/-- A configurer that does nothing and succeeds. -/
def idleConfigurer : Configurer Unit := fun _ _ s => (none, s)

/-- A valid address: four octets (IPv4) or sixteen (IPv6). -/
def validIP (ip : IP) : Prop := (ip.length = 4 ∨ ip.length = 16) ∧ ∀ o ∈ ip, o ≤ 255

/-- The path `(*Container).Apply` opens for a process. -/
def netnsPath (pid : Int) : String := "/proc/" ++ toString pid ++ "/ns/net"

/-- The error `(*Container).Apply` returns when that path cannot be opened. -/
def netnsNotFound (pid : Int) : GoError :=
  GoError.text ("Unable to find network namespace for process with pid '" ++ toString pid ++ "'")

/-- An archive reader that knows one archive, with a directory `bin` and a
file `bin/sh`. -/
def extractDemo (bytes : List Nat) : Option (List (Path × Node)) :=
  if bytes = [1, 2, 3] then some [(["bin"], Node.dir), (["bin", "sh"], Node.file [7])] else none

/-- A container directory `/c` with the image `busybox.tar` and a root
filesystem `test1` left by an earlier run. -/
def fsDemo : FS :=
  FS.ofList [(["c"], Node.dir), (["c", "images"], Node.dir),
             (["c", "images", "busybox.tar"], Node.file [1, 2, 3]),
             (["c", "rootfs"], Node.dir), (["c", "rootfs", "test1"], Node.dir),
             (["c", "rootfs", "test1", "stale"], Node.file [9])]

/-- The run of `SetNetwork` with the given parser, creators and container
configurer, each of them logging its calls, from an empty log. -/
def loggedRun {σ : Type} (parse : String → Except GoError (IP × IPNet))
    (bc : BridgeCreator σ) (vc : VethCreator σ) (cc : Configurer σ)
    (configInput : NetworkConfigInput) (s : σ) : Option GoError × σ × List (StepEntry σ) :=
  SetNetworkWith parse (Host.Apply (NewHostConfigurer bc.logged vc.logged)) cc.loggedStep
    configInput (s, [])

/-- The state of the machine when poll `k` of `WaitForNetwork` begins: after
`k` rounds of listing the interfaces and sleeping one check interval. -/
def pollState {σ : Type} (net : Net σ) (s : σ) (k : Nat) : σ :=
  (fun s0 => net.Sleep checkInterval (net.Interfaces s0).2)^[k] s

/-- A poll after which `WaitForNetwork` sleeps and polls again: the listing
succeeded with at most one interface and, after it, no more than `maxWait` has
elapsed since `timeStarted`. -/
def pollContinues {σ : Type} (net : Net σ) (timeStarted : Int) (s : σ) : Prop :=
  ∃ l, (net.Interfaces s).1 = .ok l ∧ l.length ≤ 1 ∧
    net.Now (net.Interfaces s).2 - timeStarted ≤ maxWait

/-- The error of `WaitForNetwork` when the wait is over. -/
def waitTimeout : GoError := GoError.text "Timeout after 3s waiting for network"

/-- A machine for `WaitForNetwork`: the state is the number of sleeps so far,
poll `k` lists `listing k` interfaces and the clock reads `k` seconds. -/
def pollNet (listing : Nat → Nat) : Net Nat where
  ParseCIDR := ParseCIDR
  InterfaceByName := fun _ _ => .error (GoError.text "route ip+net: no such network interface")
  Interfaces := fun k => (.ok (List.replicate (listing k) { Index := 1, Name := "lo" }), k)
  LinkAdd := fun _ k => (some (GoError.sys Errno.EPERM), k)
  AddrAdd := fun _ _ k => (some (GoError.sys Errno.EPERM), k)
  LinkSetUp := fun _ k => (some (GoError.sys Errno.EPERM), k)
  LinkByName := fun _ _ => .error (GoError.text "Link not found")
  LinkSetMaster := fun _ _ k => (some (GoError.sys Errno.EPERM), k)
  LinkSetNsPid := fun _ _ k => (some (GoError.sys Errno.EPERM), k)
  RouteAdd := fun _ k => (some (GoError.sys Errno.EPERM), k)
  Open := fun _ k => (.error (GoError.sys Errno.ENOENT), k)
  Close := fun _ k => k
  Exec := fun _ _ k => (some (GoError.sys Errno.EBADF), k)
  Now := fun k => (k : Int) * Second
  Sleep := fun _ k => k + 1

/-! # Theorems -/

/-! ## Helper lemmas -/

theorem HasSuffix_iff (s suffix : String) :
    HasSuffix s suffix = true ↔ ∃ t : String, s = t ++ suffix := by
  unfold HasSuffix
  rw [List.isSuffixOf_iff_suffix]
  constructor
  · rintro ⟨t, ht⟩
    refine ⟨String.mk t, ?_⟩
    apply String.ext
    simp [String.data_append, ht]
  · rintro ⟨t, rfl⟩
    exact ⟨t.data, by simp [String.data_append]⟩

/-! ## `CheckContainerDir` -/

/-- C2, as stated, fails.  Where the user may not search the directory
`/tmp/c`, `os.Stat` of `/tmp/c/rootfs` and of `/tmp/c/images` fails with
`EACCES`, and `CheckContainerDir` returns `nil`; where `/tmp/c` is a regular
file, the two fail with `ENOTDIR`, and `CheckContainerDir` returns `nil` too.
So "nil if and only if all three stat calls succeed" does not hold. -/
theorem CheckContainerDir_nil_with_failed_stat :
    CheckContainerDir (statOS statUnsearchable) "/tmp/c" () = none ∧
    (statOS statUnsearchable).Stat "/tmp/c" () = none ∧
    (statOS statUnsearchable).Stat (Join ["/tmp/c", RootFsDir]) ()
      = some (GoError.pathError "stat" "/tmp/c/rootfs" Errno.EACCES) ∧
    (statOS statUnsearchable).Stat (Join ["/tmp/c", ImageDir]) ()
      = some (GoError.pathError "stat" "/tmp/c/images" Errno.EACCES) ∧
    CheckContainerDir (fsOS (fun _ => none)) "/tmp/c" fsFileAsDir = none ∧
    (fsOS (fun _ => none)).Stat "/tmp/c" fsFileAsDir = none ∧
    (fsOS (fun _ => none)).Stat (Join ["/tmp/c", RootFsDir]) fsFileAsDir
      = some (GoError.pathError "stat" "/tmp/c/rootfs" Errno.ENOTDIR) ∧
    (fsOS (fun _ => none)).Stat (Join ["/tmp/c", ImageDir]) fsFileAsDir
      = some (GoError.pathError "stat" "/tmp/c/images" Errno.ENOTDIR) ∧
    ¬ (∀ (os : OS Unit) (d : String) (s : Unit),
        CheckContainerDir os d s = none ↔
          (os.Stat d s = none ∧ os.Stat (Join [d, RootFsDir]) s = none ∧
            os.Stat (Join [d, ImageDir]) s = none)) := by
  refine ⟨by decide, by decide, by decide, by decide, by decide, by decide, by decide,
    by decide, ?_⟩
  intro h
  have h1 := (h (statOS statUnsearchable) "/tmp/c" ()).1 (by decide)
  exact absurd h1.2.1 (by decide)

/-- C2, amended: on every machine and for every directory `d`,
`CheckContainerDir` returns `nil` when the three `os.Stat` calls (of `d`, of
`d/rootfs`, of `d/images`) all succeed; and when one of them fails with a
does-not-exist error it returns a non-nil error, namely the error of the first
call, in the order `d`, `d/rootfs`, `d/images`, that fails so: that of `d` if
it fails so; else that of `d/rootfs` if it fails so; else that of
`d/images`. -/
theorem CheckContainerDir_reports_first_missing {σ : Type} (os : OS σ) (d : String) (s : σ) :
    (os.Stat d s = none → os.Stat (Join [d, RootFsDir]) s = none →
      os.Stat (Join [d, ImageDir]) s = none → CheckContainerDir os d s = none) ∧
    (IsNotExist (os.Stat d s) = true →
      CheckContainerDir os d s = os.Stat d s ∧ CheckContainerDir os d s ≠ none) ∧
    (IsNotExist (os.Stat d s) = false → IsNotExist (os.Stat (Join [d, RootFsDir]) s) = true →
      CheckContainerDir os d s = os.Stat (Join [d, RootFsDir]) s ∧
      CheckContainerDir os d s ≠ none) ∧
    (IsNotExist (os.Stat d s) = false → IsNotExist (os.Stat (Join [d, RootFsDir]) s) = false →
      IsNotExist (os.Stat (Join [d, ImageDir]) s) = true →
      CheckContainerDir os d s = os.Stat (Join [d, ImageDir]) s ∧
      CheckContainerDir os d s ≠ none) := by
  have key : ∀ e : Option GoError, IsNotExist e = true → e ≠ none := by
    intro e he h0
    subst h0
    simp [IsNotExist] at he
  refine ⟨?_, ?_, ?_, ?_⟩
  · intro h1 h2 h3
    simp [CheckContainerDir, h1, h2, h3, IsNotExist]
  · intro h1
    have e : CheckContainerDir os d s = os.Stat d s := by
      simp [CheckContainerDir, h1]
    exact ⟨e, e ▸ key _ h1⟩
  · intro h1 h2
    have e : CheckContainerDir os d s = os.Stat (Join [d, RootFsDir]) s := by
      simp [CheckContainerDir, h1, h2]
    exact ⟨e, e ▸ key _ h2⟩
  · intro h1 h2 h3
    have e : CheckContainerDir os d s = os.Stat (Join [d, ImageDir]) s := by
      simp [CheckContainerDir, h1, h2, h3]
    exact ⟨e, e ▸ key _ h3⟩

/-- Witness of the amended C2: in the empty directory `/tmp/c` both `rootfs`
and `images` are missing and the error returned is that of `rootfs`, the first
of the two to be stat'ed; a directory that is itself missing is rejected with
the error of its own stat; the complete layout under `/c` passes. -/
theorem CheckContainerDir_reports_first_missing_witness :
    CheckContainerDir (fsOS (fun _ => none)) "/tmp/c" fsEmptyDir
      = some (GoError.pathError "stat" "/tmp/c/rootfs" Errno.ENOENT) ∧
    CheckContainerDir (fsOS (fun _ => none)) "/tmp/d" fsEmptyDir
      = some (GoError.pathError "stat" "/tmp/d" Errno.ENOENT) ∧
    CheckContainerDir (fsOS (fun _ => none)) "/c" fsDemo = none :=
  ⟨((CheckContainerDir_reports_first_missing (fsOS (fun _ => none)) "/tmp/c" fsEmptyDir).2.2.1
      (by decide) (by decide)).1.trans (by decide),
   ((CheckContainerDir_reports_first_missing (fsOS (fun _ => none)) "/tmp/d" fsEmptyDir).2.1
      (by decide)).1.trans (by decide),
   (CheckContainerDir_reports_first_missing (fsOS (fun _ => none)) "/c" fsDemo).1
      (by decide) (by decide) (by decide)⟩

/-! ## The root filesystem paths of `main` and of `nsInit` -/

/-- C6 fails on the code: run with `--container-dir /tmp/c` and
`--container-name test1`, `main` stages the root filesystem at
`/tmp/c/rootfs/test1`, while `PivotRoot` bind-mounts and pivots into
`/var/tmp/containers/rootfs/test1` and `MountProc` mounts proc at
`/var/tmp/containers/rootfs/test1/proc`: both build their path from the
constant `ContainerDir`, not from the directory given to the run. -/
theorem PivotRoot_ignores_container_dir :
    main_destRootFsDir "/tmp/c" "test1" = "/tmp/c/rootfs/test1" ∧
    PivotRoot recordingOS "test1" [] =
      (none,
       [Call.Mount "/var/tmp/containers/rootfs/test1" "/var/tmp/containers/rootfs/test1" ""
          (MS_BIND ||| MS_REC) "",
        Call.MkdirAll "/var/tmp/containers/rootfs/test1/.pivot_root" 0o700,
        Call.PivotRoot "/var/tmp/containers/rootfs/test1"
          "/var/tmp/containers/rootfs/test1/.pivot_root",
        Call.Chdir "/",
        Call.Unmount "/.pivot_root" MNT_DETACH,
        Call.RemoveAll "/.pivot_root"]) ∧
    MountProc recordingOS "test1" [] =
      (none,
       [Call.MkdirAll "/var/tmp/containers/rootfs/test1/proc" 0o755,
        Call.Mount "proc" "/var/tmp/containers/rootfs/test1/proc" "proc" 0 ""]) := by
  refine ⟨by decide, by decide, by decide⟩

/-! ## `Untar` -/

/-- C8: on every machine, when the archive name does not end in `tar`, `Untar`
returns an error and leaves the machine as it was, and on the recording
machine no call at all is made (no child process is started); when the name
ends in `tar`, `Untar` is exactly "start the command `tar -C destDir -xf
srcTar`, return the error of the start, else wait for it", and on the
recording machine that command is started and waited for. -/
theorem Untar_rejects_or_starts_tar {σ : Type} (os : OS σ) (srcTar destDir : String) (s : σ)
    (log : List Call) :
    ((¬ ∃ t : String, srcTar = t ++ "tar") →
      (∃ err, Untar os srcTar destDir s = (some err, s)) ∧
      (Untar recordingOS srcTar destDir log).2 = log) ∧
    ((∃ t : String, srcTar = t ++ "tar") →
      Untar os srcTar destDir s =
        (match os.Start ["tar", "-C", destDir, "-xf", srcTar] s with
         | (some err, s1) => (some err, s1)
         | (none, s1) => os.Wait ["tar", "-C", destDir, "-xf", srcTar] s1) ∧
      (Untar recordingOS srcTar destDir log).2 =
        log ++ [Call.Start ["tar", "-C", destDir, "-xf", srcTar],
                Call.Wait ["tar", "-C", destDir, "-xf", srcTar]]) := by
  constructor
  · intro h
    have hs : HasSuffix srcTar "tar" = false := by
      cases hb : HasSuffix srcTar "tar"
      · rfl
      · exact absurd ((HasSuffix_iff _ _).1 hb) h
    simp [Untar, hs]
  · intro h
    have hs : HasSuffix srcTar "tar" = true := (HasSuffix_iff _ _).2 h
    simp [Untar, hs, recordingOS]

/-- Witness of C8: `busybox.tgz` is rejected without a call, `busybox.tar`
starts `tar -C /c/rootfs/x -xf busybox.tar`. -/
theorem Untar_rejects_or_starts_tar_witness :
    (Untar recordingOS "busybox.tgz" "/c/rootfs/x" []).2 = [] ∧
    (Untar recordingOS "busybox.tar" "/c/rootfs/x" []).2 =
      [Call.Start ["tar", "-C", "/c/rootfs/x", "-xf", "busybox.tar"],
       Call.Wait ["tar", "-C", "/c/rootfs/x", "-xf", "busybox.tar"]] :=
  ⟨((Untar_rejects_or_starts_tar recordingOS "busybox.tgz" "/c/rootfs/x" [] []).1
      (by
        rintro ⟨t, ht⟩
        have := (HasSuffix_iff "busybox.tgz" "tar").2 ⟨t, ht⟩
        exact absurd this (by decide))).2,
   ((Untar_rejects_or_starts_tar recordingOS "busybox.tar" "/c/rootfs/x" [] []).2
      ⟨"busybox.", by decide⟩).2⟩

/-! ## `SetNetwork`: malformed addresses -/

/-- C4: on every machine, with every parser and every pair of configurers, an
input whose bridge address or container address does not parse makes
`SetNetwork` return an error with the machine unchanged; with logging
configurers the log stays empty, so neither configurer is invoked. -/
theorem SetNetwork_malformed_CIDR {σ : Type} (net : Net σ) (hc cc : Configurer σ)
    (configInput : NetworkConfigInput) (s : σ)
    (h : (∃ e, net.ParseCIDR configInput.BridgeAddress = .error e) ∨
         (∃ e, net.ParseCIDR configInput.ContainerAddress = .error e)) :
    (∃ err, SetNetworkWith net.ParseCIDR (Configurer.logged Which.host hc)
        (Configurer.logged Which.container cc) configInput (s, []) = (some err, (s, []))) ∧
    (∃ err, SetNetwork net configInput s = (some err, s)) := by
  unfold SetNetwork SetNetworkWith
  rcases h with ⟨e, he⟩ | ⟨e, he⟩
  · simp [he]
  · cases hb : net.ParseCIDR configInput.BridgeAddress with
    | error e1 => simp
    | ok v => simp [he]

/-- Witness of C4: the bridge address `not-an-ip` on the kernel model; the
devices, routes and files are exactly those of before. -/
theorem SetNetwork_malformed_CIDR_witness :
    ∃ err, SetNetwork simNet badBridgeInput world0 = (some err, world0) :=
  (SetNetwork_malformed_CIDR simNet (fun _ _ w => (none, w)) (fun _ _ w => (none, w))
    badBridgeInput world0
    (Or.inl ⟨GoError.text "invalid CIDR address: not-an-ip", by decide⟩)).2

/-! ## `SetNetwork`: the configuration handed to the configurers -/

theorem parseOctet_le {cs : List Char} {n : Nat} (h : parseOctet cs = some n) : n ≤ 255 := by
  unfold parseOctet at h
  split at h
  · exact absurd h (by simp)
  · split at h
    · exact absurd h (by simp)
    · rename_i m _ hm
      have : m = n := by simpa using h
      subst this
      omega

theorem IP_Mask_idem (a b c d : Nat) (m : IPMask) :
    IP.Mask (IP.Mask [a, b, c, d] m) m = IP.Mask [a, b, c, d] m := by
  unfold IP.Mask
  match m with
  | [] => rfl
  | [m0] => simp [Nat.and_assoc]
  | [m0, m1] => simp [Nat.and_assoc]
  | [m0, m1, m2] => simp [Nat.and_assoc]
  | m0 :: m1 :: m2 :: m3 :: rest => simp [Nat.and_assoc]

theorem map_eq_four {α β : Type} {f : α → β} {l : List α} {a b c d : β}
    (h : l.map f = [a, b, c, d]) :
    ∃ w x y z, f w = a ∧ f x = b ∧ f y = c ∧ f z = d := by
  rcases l with _ | ⟨w, _ | ⟨x, _ | ⟨y, _ | ⟨z, _ | ⟨u, t⟩⟩⟩⟩⟩ <;> simp at h
  exact ⟨w, x, y, z, h⟩

/-- What a successful `ParseCIDR` returns: a valid address and a network that
contains it. -/
theorem ParseCIDR_ok {s : String} {ip : IP} {n : IPNet} (h : ParseCIDR s = .ok (ip, n)) :
    validIP ip ∧ n.Contains ip = true := by
  unfold ParseCIDR at h
  simp only at h
  split at h
  · exact absurd h (by simp)
  · split at h
    · rename_i a b c d hoct
      split at h
      · exact absurd h (by simp)
      · split at h
        · exact absurd h (by simp)
        · simp only [Except.ok.injEq, Prod.mk.injEq] at h
          obtain ⟨hip, hn⟩ := h
          subst hip
          subst hn
          obtain ⟨w, x, y, z, hw, hx, hy, hz⟩ := map_eq_four hoct
          refine ⟨⟨Or.inl rfl, ?_⟩, ?_⟩
          · intro o ho
            simp only [List.mem_cons, List.mem_singleton, List.not_mem_nil, or_false] at ho
            rcases ho with rfl | rfl | rfl | rfl
            · exact parseOctet_le hw
            · exact parseOctet_le hx
            · exact parseOctet_le hy
            · exact parseOctet_le hz
          · simp only [IPNet.Contains, IP_Mask_idem]
            simp [IP.Mask, CIDRMask]
    · exact absurd h (by simp)

/-- C5, as stated, fails: with the bridge address also given as the container
address, both configurers are invoked with `BridgeIP = ContainerIP` and
`SetNetwork` succeeds on the kernel model; with the container address
`192.168.1.2/24` both are invoked with a `ContainerIP` outside `Subnet`, and on
the kernel model the bridge and the veth pair exist when `SetNetwork` returns
its error. -/
theorem SetNetwork_passes_unchecked_addresses :
    SetNetworkWith ParseCIDR (Configurer.logged Which.host idleConfigurer)
        (Configurer.logged Which.container idleConfigurer) sameAddressInput ((), []) =
      (none, ((),
        [{ which := Which.host, pid := 4242,
           netConfig := { BridgeName := "brg0", BridgeIP := [10, 10, 10, 1],
                          ContainerIP := [10, 10, 10, 1],
                          Subnet := { IP := [10, 10, 10, 0], Mask := [255, 255, 255, 0] },
                          VethNamePrefix := "veth" } },
         { which := Which.container, pid := 4242,
           netConfig := { BridgeName := "brg0", BridgeIP := [10, 10, 10, 1],
                          ContainerIP := [10, 10, 10, 1],
                          Subnet := { IP := [10, 10, 10, 0], Mask := [255, 255, 255, 0] },
                          VethNamePrefix := "veth" } }])) ∧
    (SetNetwork simNet sameAddressInput world0).1 = none ∧
    SetNetworkWith ParseCIDR (Configurer.logged Which.host idleConfigurer)
        (Configurer.logged Which.container idleConfigurer) otherSubnetInput ((), []) =
      (none, ((),
        [{ which := Which.host, pid := 4242,
           netConfig := { BridgeName := "brg0", BridgeIP := [10, 10, 10, 1],
                          ContainerIP := [192, 168, 1, 2],
                          Subnet := { IP := [10, 10, 10, 0], Mask := [255, 255, 255, 0] },
                          VethNamePrefix := "veth" } },
         { which := Which.container, pid := 4242,
           netConfig := { BridgeName := "brg0", BridgeIP := [10, 10, 10, 1],
                          ContainerIP := [192, 168, 1, 2],
                          Subnet := { IP := [10, 10, 10, 0], Mask := [255, 255, 255, 0] },
                          VethNamePrefix := "veth" } }])) ∧
    IPNet.Contains { IP := [10, 10, 10, 0], Mask := [255, 255, 255, 0] } [192, 168, 1, 2] = false ∧
    (SetNetwork simNet otherSubnetInput world0).1 = some (GoError.sys Errno.ENETUNREACH) ∧
    (SetNetwork simNet otherSubnetInput world0).2.devs.map (fun d => (d.Ns, d.Name)) =
      [(0, "lo"), (0, "eth0"), (1, "lo"), (0, "brg0"), (0, "veth0"), (1, "veth1")] := by
  refine ⟨by decide, by decide, by decide, by decide, by decide, by decide⟩

/-- C5, amended: let the parser return, as `net.ParseCIDR` does, a valid
address and a network that contains it.  Then every `NetworkConfig` that
`SetNetwork` passes to a configurer is made of the two parsed addresses:
`BridgeIP` and `Subnet` are the address and the network of `BridgeAddress`,
`ContainerIP` is the address of `ContainerAddress` (whose own network is
dropped), both are valid addresses and `BridgeIP` lies inside `Subnet`; the
names and the pid are those of the input.  Nothing else is checked: whenever
both addresses parse, the host configurer is invoked with that
configuration. -/
theorem SetNetwork_config_from_parsed_addresses {σ : Type}
    (parse : String → Except GoError (IP × IPNet))
    (hparse : ∀ a ip n, parse a = .ok (ip, n) → validIP ip ∧ n.Contains ip = true)
    (hc cc : Configurer σ) (configInput : NetworkConfigInput) (s : σ) :
    (∀ inv ∈ (SetNetworkWith parse (Configurer.logged Which.host hc)
          (Configurer.logged Which.container cc) configInput (s, [])).2.2,
      ∃ containerSubnet,
        parse configInput.BridgeAddress
          = .ok (inv.netConfig.BridgeIP, inv.netConfig.Subnet) ∧
        parse configInput.ContainerAddress
          = .ok (inv.netConfig.ContainerIP, containerSubnet) ∧
        inv.netConfig.BridgeName = configInput.BridgeName ∧
        inv.netConfig.VethNamePrefix = configInput.VethNamePrefix ∧
        inv.pid = configInput.Pid ∧
        validIP inv.netConfig.BridgeIP ∧ validIP inv.netConfig.ContainerIP ∧
        inv.netConfig.Subnet.Contains inv.netConfig.BridgeIP = true) ∧
    (∀ bridgeIP bridgeSubnet containerIP containerSubnet,
      parse configInput.BridgeAddress = .ok (bridgeIP, bridgeSubnet) →
      parse configInput.ContainerAddress = .ok (containerIP, containerSubnet) →
      (SetNetworkWith parse (Configurer.logged Which.host hc)
          (Configurer.logged Which.container cc) configInput (s, [])).2.2.head? =
        some { which := Which.host, pid := configInput.Pid,
               netConfig := { BridgeName := configInput.BridgeName, BridgeIP := bridgeIP,
                              ContainerIP := containerIP, Subnet := bridgeSubnet,
                              VethNamePrefix := configInput.VethNamePrefix } }) := by
  constructor
  · intro inv hinv
    unfold SetNetworkWith at hinv
    cases hb : parse configInput.BridgeAddress with
    | error e => simp [hb] at hinv
    | ok b =>
      obtain ⟨bridgeIP, bridgeSubnet⟩ := b
      cases hcn : parse configInput.ContainerAddress with
      | error e => simp [hb, hcn] at hinv
      | ok c =>
        obtain ⟨containerIP, containerSubnet⟩ := c
        have hB := hparse _ _ _ hb
        have hC := hparse _ _ _ hcn
        simp only [hb, hcn, Configurer.logged, List.nil_append] at hinv
        have hcase : inv.netConfig = ⟨configInput.BridgeName, bridgeIP, containerIP,
            bridgeSubnet, configInput.VethNamePrefix⟩ ∧ inv.pid = configInput.Pid := by
          rcases h1 : hc ⟨configInput.BridgeName, bridgeIP, containerIP, bridgeSubnet,
            configInput.VethNamePrefix⟩ configInput.Pid s with ⟨r1, s1⟩
          simp only [h1] at hinv
          cases r1 with
          | some e =>
            simp at hinv
            subst hinv
            exact ⟨rfl, rfl⟩
          | none =>
            simp only at hinv
            rcases h2 : cc ⟨configInput.BridgeName, bridgeIP, containerIP, bridgeSubnet,
              configInput.VethNamePrefix⟩ configInput.Pid s1 with ⟨r2, s2⟩
            simp only [h2] at hinv
            cases r2 <;> simp at hinv <;> rcases hinv with rfl | rfl <;> exact ⟨rfl, rfl⟩
        obtain ⟨hcfg, hpid⟩ := hcase
        refine ⟨containerSubnet, ?_, ?_, ?_, ?_, hpid, ?_, ?_, ?_⟩ <;> simp [hcfg, hB, hC]
  · intro bridgeIP bridgeSubnet containerIP containerSubnet hb hcn
    unfold SetNetworkWith
    simp only [hb, hcn, Configurer.logged, List.nil_append]
    rcases h1 : hc ⟨configInput.BridgeName, bridgeIP, containerIP, bridgeSubnet,
      configInput.VethNamePrefix⟩ configInput.Pid s with ⟨r1, s1⟩
    cases r1 with
    | some e => simp
    | none =>
      simp only
      rcases h2 : cc ⟨configInput.BridgeName, bridgeIP, containerIP, bridgeSubnet,
        configInput.VethNamePrefix⟩ configInput.Pid s1 with ⟨r2, s2⟩
      cases r2 <;> simp

/-- Witness of the amended C5: with the IPv4 parser, the input with two equal
addresses reaches the host configurer. -/
theorem SetNetwork_config_from_parsed_addresses_witness :
    (SetNetworkWith ParseCIDR (Configurer.logged Which.host idleConfigurer)
        (Configurer.logged Which.container idleConfigurer) sameAddressInput ((), [])).2.2.head? =
      some { which := Which.host, pid := 4242,
             netConfig := { BridgeName := "brg0", BridgeIP := [10, 10, 10, 1],
                            ContainerIP := [10, 10, 10, 1],
                            Subnet := { IP := [10, 10, 10, 0], Mask := [255, 255, 255, 0] },
                            VethNamePrefix := "veth" } } :=
  (SetNetwork_config_from_parsed_addresses ParseCIDR (fun _ _ _ h => ParseCIDR_ok h)
      idleConfigurer idleConfigurer sameAddressInput ()).2
    [10, 10, 10, 1] { IP := [10, 10, 10, 0], Mask := [255, 255, 255, 0] }
    [10, 10, 10, 1] { IP := [10, 10, 10, 0], Mask := [255, 255, 255, 0] }
    (by decide) (by decide)

/-! ## `Container.Apply` -/

/-- On the scripted machine the callback only appends address, link-up and
route calls to the log. -/
theorem cbFunc_scripted_log (o : Script) (netConfig : NetworkConfig) (log : List NetCall) :
    ∃ calls, (Container.cbFunc (scriptedNet o) netConfig log).2 = log ++ calls ∧
      ∀ c ∈ calls, (∃ l a, c = NetCall.AddrAdd l a) ∨ (∃ l, c = NetCall.LinkSetUp l) ∨
        (∃ r, c = NetCall.RouteAdd r) := by
  unfold Container.cbFunc
  simp only [scriptedNet]
  cases o.link (netConfig.VethNamePrefix ++ "1") log with
  | error e => exact ⟨[], by simp⟩
  | ok link =>
    simp only
    cases o.err (log ++ [NetCall.AddrAdd link
        { IPNet := { IP := netConfig.ContainerIP, Mask := netConfig.Subnet.Mask } }]) with
    | some e =>
      exact ⟨[NetCall.AddrAdd link
        { IPNet := { IP := netConfig.ContainerIP, Mask := netConfig.Subnet.Mask } }],
        by simp, by simp⟩
    | none =>
      simp only
      cases o.err (log ++ [NetCall.AddrAdd link
          { IPNet := { IP := netConfig.ContainerIP, Mask := netConfig.Subnet.Mask } }] ++
          [NetCall.LinkSetUp link]) with
      | some e =>
        exact ⟨[NetCall.AddrAdd link
          { IPNet := { IP := netConfig.ContainerIP, Mask := netConfig.Subnet.Mask } },
          NetCall.LinkSetUp link], by simp, by simp⟩
      | none =>
        exact ⟨[NetCall.AddrAdd link
          { IPNet := { IP := netConfig.ContainerIP, Mask := netConfig.Subnet.Mask } },
          NetCall.LinkSetUp link,
          NetCall.RouteAdd { Scope := SCOPE_UNIVERSE, LinkIndex := link.Attrs.Index,
                             Gw := netConfig.BridgeIP }], by simp, by simp⟩

theorem scriptedNet_Open (o : Script) (path : String) (log : List NetCall) :
    (scriptedNet o).Open path log =
      (match o.err (log ++ [NetCall.Open path]) with
       | some err => (.error err, log ++ [NetCall.Open path])
       | none => (.ok (o.file (log ++ [NetCall.Open path])), log ++ [NetCall.Open path])) := rfl

theorem scriptedNet_Exec (o : Script) (f : File) (cb : List NetCall → Option GoError × List NetCall)
    (log : List NetCall) :
    (scriptedNet o).Exec f cb log =
      (match o.err (log ++ [NetCall.Exec f]) with
       | some err => (some err, log ++ [NetCall.Exec f])
       | none => ((cb (log ++ [NetCall.Exec f])).1,
                  (cb (log ++ [NetCall.Exec f])).2 ++ [NetCall.ExecReturn])) := by
  unfold scriptedNet
  simp only

theorem scriptedNet_Close (o : Script) (f : File) (log : List NetCall) :
    (scriptedNet o).Close f log = log ++ [NetCall.Close f] := rfl

/-- C9: when `/proc/<pid>/ns/net` cannot be opened, `Container.Apply` returns
the error "Unable to find network namespace for process with pid '<pid>'" and
the machine is as the failed open left it; on the scripted machine the log
holds that one `Open` and nothing more: no second attempt, no `Exec`, no
address, link-up or route call.  When the open succeeds with the file `f`, the
result is that of the execer and the machine is the one the execer left with
`f` closed; on the scripted machine, whatever the execer and the callback
return, the log is the `Open`, the `Exec` of `f`, calls that neither open nor
close a file, and last the `Close` of `f`. -/
theorem Container_Apply_namespace_file {σ : Type} (net : Net σ) (o : Script)
    (netConfig : NetworkConfig) (pid : Int) (s : σ) (log : List NetCall) :
    ((∃ e, (net.Open (netnsPath pid) s).1 = .error e) →
      Container.Apply net netConfig pid s
        = (some (netnsNotFound pid), (net.Open (netnsPath pid) s).2)) ∧
    (o.err (log ++ [NetCall.Open (netnsPath pid)]) ≠ none →
      Container.Apply (scriptedNet o) netConfig pid log
        = (some (netnsNotFound pid), log ++ [NetCall.Open (netnsPath pid)])) ∧
    (∀ f s1, net.Open (netnsPath pid) s = (.ok f, s1) →
      Container.Apply net netConfig pid s
        = ((net.Exec f (Container.cbFunc net netConfig) s1).1,
           net.Close f (net.Exec f (Container.cbFunc net netConfig) s1).2)) ∧
    (o.err (log ++ [NetCall.Open (netnsPath pid)]) = none →
      ∃ calls,
        (Container.Apply (scriptedNet o) netConfig pid log).2
          = log ++ [NetCall.Open (netnsPath pid),
                    NetCall.Exec (o.file (log ++ [NetCall.Open (netnsPath pid)]))]
              ++ calls ++ [NetCall.Close (o.file (log ++ [NetCall.Open (netnsPath pid)]))] ∧
        ∀ c ∈ calls, (∀ f, c ≠ NetCall.Close f) ∧ (∀ p, c ≠ NetCall.Open p)) := by
  refine ⟨?_, ?_, ?_, ?_⟩
  · rintro ⟨e, he⟩
    unfold Container.Apply
    rcases h : net.Open ("/proc/" ++ toString pid ++ "/ns/net") s with ⟨r, s1⟩
    have he2 : r = .error e := by
      have := he
      unfold netnsPath at this
      rw [h] at this
      exact this
    subst he2
    simp [netnsNotFound, netnsPath, h]
  · intro h
    unfold Container.Apply
    cases h1 : o.err (log ++ [NetCall.Open (netnsPath pid)]) with
    | none => exact absurd h1 h
    | some e =>
      unfold netnsPath at h1
      simp [scriptedNet_Open, h1, netnsNotFound, netnsPath]
  · intro f s1 h
    unfold Container.Apply
    unfold netnsPath at h
    simp [h]
  · intro h
    unfold Container.Apply
    unfold netnsPath at h ⊢
    simp only [scriptedNet_Open, h, scriptedNet_Exec, scriptedNet_Close]
    cases h2 : o.err (log ++ [NetCall.Open ("/proc/" ++ toString pid ++ "/ns/net")] ++
        [NetCall.Exec (o.file (log ++ [NetCall.Open ("/proc/" ++ toString pid ++ "/ns/net")]))]) with
    | some e => exact ⟨[], by simp, by simp⟩
    | none =>
      obtain ⟨calls, hcalls, hkind⟩ := cbFunc_scripted_log o netConfig
        (log ++ [NetCall.Open ("/proc/" ++ toString pid ++ "/ns/net")] ++
          [NetCall.Exec (o.file (log ++ [NetCall.Open ("/proc/" ++ toString pid ++ "/ns/net")]))])
      refine ⟨calls ++ [NetCall.ExecReturn], ?_, ?_⟩
      · simp only [List.append_assoc, List.cons_append, List.nil_append] at hcalls ⊢
        rw [hcalls]
        simp
      · intro c hc
        simp only [List.mem_append, List.mem_singleton] at hc
        rcases hc with hc | rfl
        · rcases hkind c hc with ⟨l, a, rfl⟩ | ⟨l, rfl⟩ | ⟨r, rfl⟩ <;> simp
        · simp

/-- Witness of C9: on the kernel model no process has pid 7; the machine is
untouched. -/
theorem Container_Apply_namespace_file_witness :
    Container.Apply simNet mainConfig 7 world0
      = (some (GoError.text "Unable to find network namespace for process with pid '7'"),
         world0) :=
  ((Container_Apply_namespace_file simNet
      { parse := ParseCIDR, err := fun _ => none, file := fun _ => 3,
        iface := fun _ _ => .error (GoError.sys Errno.ENODEV),
        ifaces := fun _ => .ok [],
        link := fun _ _ => .error (GoError.sys Errno.ENODEV),
        now := fun _ => 0 }
      mainConfig 7 world0 []).1 ⟨GoError.sys Errno.ENOENT, by decide⟩).trans (by decide)

/-! ## `SetNetwork`: the order of the steps -/

theorem NewHostConfigurer_BridgeCreator {σ : Type} (b : BridgeCreator σ) (v : VethCreator σ) :
    (NewHostConfigurer b v).BridgeCreator = b := rfl

theorem NewHostConfigurer_VethCreator {σ : Type} (b : BridgeCreator σ) (v : VethCreator σ) :
    (NewHostConfigurer b v).VethCreator = v := rfl

theorem logged_BridgeCreate {σ : Type} (b : BridgeCreator σ) (name : String) (ip : IP)
    (subnet : IPNet) (st : σ × List (StepEntry σ)) :
    b.logged.Create name ip subnet st =
      ((b.Create name ip subnet st.1).1,
       ((b.Create name ip subnet st.1).2,
        st.2 ++ [{ call := StepCall.BridgeCreate name ip subnet, before := st.1,
                   result := StepResult.ofBridge (b.Create name ip subnet st.1).1,
                   after := (b.Create name ip subnet st.1).2 }])) := rfl

theorem logged_Attach {σ : Type} (b : BridgeCreator σ) (bridge hostVeth : Interface)
    (st : σ × List (StepEntry σ)) :
    b.logged.Attach bridge hostVeth st =
      ((b.Attach bridge hostVeth st.1).1,
       ((b.Attach bridge hostVeth st.1).2,
        st.2 ++ [{ call := StepCall.Attach bridge hostVeth, before := st.1,
                   result := StepResult.ofError (b.Attach bridge hostVeth st.1).1,
                   after := (b.Attach bridge hostVeth st.1).2 }])) := rfl

theorem logged_VethCreate {σ : Type} (v : VethCreator σ) (namePrefix : String)
    (st : σ × List (StepEntry σ)) :
    v.logged.Create namePrefix st =
      ((v.Create namePrefix st.1).1,
       ((v.Create namePrefix st.1).2,
        st.2 ++ [{ call := StepCall.VethCreate namePrefix, before := st.1,
                   result := StepResult.ofVeths (v.Create namePrefix st.1).1,
                   after := (v.Create namePrefix st.1).2 }])) := rfl

theorem logged_Move {σ : Type} (v : VethCreator σ) (containerVeth : Interface) (pid : Int)
    (st : σ × List (StepEntry σ)) :
    v.logged.MoveToNetworkNamespace containerVeth pid st =
      ((v.MoveToNetworkNamespace containerVeth pid st.1).1,
       ((v.MoveToNetworkNamespace containerVeth pid st.1).2,
        st.2 ++ [{ call := StepCall.MoveToNetworkNamespace containerVeth pid, before := st.1,
                   result := StepResult.ofError (v.MoveToNetworkNamespace containerVeth pid st.1).1,
                   after := (v.MoveToNetworkNamespace containerVeth pid st.1).2 }])) := rfl

theorem loggedStep_apply {σ : Type} (c : Configurer σ) (netConfig : NetworkConfig) (pid : Int)
    (st : σ × List (StepEntry σ)) :
    Configurer.loggedStep c netConfig pid st =
      ((c netConfig pid st.1).1,
       ((c netConfig pid st.1).2,
        st.2 ++ [{ call := StepCall.ContainerApply netConfig pid, before := st.1,
                   result := StepResult.ofError (c netConfig pid st.1).1,
                   after := (c netConfig pid st.1).2 }])) := rfl

/-- C10: for every parser, every bridge creator, veth creator and container
configurer (whatever each of their calls returns) and every input whose two
addresses parse, the steps that `SetNetwork` runs are the first `k` of
bridge `Create`, veth `Create`, `Attach`, `MoveToNetworkNamespace`,
container `Apply`, in this order, for some `k` from 1 to 5; every step but the
last one run returned no error; `SetNetwork` returns what the last step
returned and leaves the machine as that step left it (nothing is undone); when
`SetNetwork` returns `nil` all five steps ran.  So a step that returns an
error is the last step, and the container configurer runs only after the four
steps of `Host.Apply` have succeeded.  Logging changes neither the result nor
the machine.

The arguments of the steps are these: the bridge `Create` gets the bridge name
of the input and the address and network parsed from its bridge address; the
veth `Create` gets the veth name prefix of the input; `Attach` gets the bridge
that the bridge `Create` returned and the host end (the first interface) that
the veth `Create` returned; `MoveToNetworkNamespace` gets the container end
(the second interface) that the veth `Create` returned and the pid of the
input; the container configurer gets the pid of the input and the
configuration made of the names of the input and the parsed addresses.  The
first step runs in the initial state and every later step in the state the
step before it left. -/
theorem SetNetwork_steps_in_order {σ : Type} (parse : String → Except GoError (IP × IPNet))
    (bc : BridgeCreator σ) (vc : VethCreator σ) (cc : Configurer σ)
    (configInput : NetworkConfigInput) (s : σ)
    (hvalid : (∃ b, parse configInput.BridgeAddress = .ok b) ∧
              (∃ c, parse configInput.ContainerAddress = .ok c)) :
    ∃ k, 1 ≤ k ∧ k ≤ 5 ∧
      (loggedRun parse bc vc cc configInput s).2.2.map StepEntry.step = stepOrder.take k ∧
      (∀ e ∈ (loggedRun parse bc vc cc configInput s).2.2.dropLast, e.err = none) ∧
      (loggedRun parse bc vc cc configInput s).2.2.getLast?.map StepEntry.err
        = some (loggedRun parse bc vc cc configInput s).1 ∧
      (loggedRun parse bc vc cc configInput s).2.2.getLast?.map StepEntry.after
        = some (loggedRun parse bc vc cc configInput s).2.1 ∧
      ((loggedRun parse bc vc cc configInput s).1 = none → k = 5) ∧
      (loggedRun parse bc vc cc configInput s).1
        = (SetNetworkWith parse (Host.Apply (NewHostConfigurer bc vc)) cc configInput s).1 ∧
      (loggedRun parse bc vc cc configInput s).2.1
        = (SetNetworkWith parse (Host.Apply (NewHostConfigurer bc vc)) cc configInput s).2 ∧
      (∀ e ∈ (loggedRun parse bc vc cc configInput s).2.2, ∀ name ip subnet,
        e.call = StepCall.BridgeCreate name ip subnet →
          name = configInput.BridgeName ∧
          parse configInput.BridgeAddress = .ok (ip, subnet)) ∧
      (∀ e ∈ (loggedRun parse bc vc cc configInput s).2.2, ∀ namePrefix,
        e.call = StepCall.VethCreate namePrefix →
          namePrefix = configInput.VethNamePrefix) ∧
      (∀ e ∈ (loggedRun parse bc vc cc configInput s).2.2, ∀ bridge hostVeth,
        e.call = StepCall.Attach bridge hostVeth →
          (∃ e1 ∈ (loggedRun parse bc vc cc configInput s).2.2,
            e1.step = Step.BridgeCreate ∧ e1.result = StepResult.bridge bridge) ∧
          (∃ e2 ∈ (loggedRun parse bc vc cc configInput s).2.2, ∃ containerVeth,
            e2.step = Step.VethCreate ∧
            e2.result = StepResult.veths hostVeth containerVeth)) ∧
      (∀ e ∈ (loggedRun parse bc vc cc configInput s).2.2, ∀ containerVeth pid,
        e.call = StepCall.MoveToNetworkNamespace containerVeth pid →
          pid = configInput.Pid ∧
          (∃ e2 ∈ (loggedRun parse bc vc cc configInput s).2.2, ∃ hostVeth,
            e2.step = Step.VethCreate ∧
            e2.result = StepResult.veths hostVeth containerVeth)) ∧
      (∀ e ∈ (loggedRun parse bc vc cc configInput s).2.2, ∀ netConfig pid,
        e.call = StepCall.ContainerApply netConfig pid →
          pid = configInput.Pid ∧
          netConfig.BridgeName = configInput.BridgeName ∧
          netConfig.VethNamePrefix = configInput.VethNamePrefix ∧
          parse configInput.BridgeAddress = .ok (netConfig.BridgeIP, netConfig.Subnet) ∧
          (∃ containerSubnet,
            parse configInput.ContainerAddress
              = .ok (netConfig.ContainerIP, containerSubnet))) ∧
      (loggedRun parse bc vc cc configInput s).2.2.head?.map StepEntry.before = some s ∧
      List.Chain' (fun e1 e2 => e2.before = e1.after)
        (loggedRun parse bc vc cc configInput s).2.2 := by
  obtain ⟨⟨⟨bridgeIP, bridgeSubnet⟩, hb⟩, ⟨⟨containerIP, containerSubnet⟩, hc⟩⟩ := hvalid
  unfold loggedRun SetNetworkWith Host.Apply
  simp only [hb, hc, NewHostConfigurer_BridgeCreator, NewHostConfigurer_VethCreator,
    logged_BridgeCreate, logged_Attach, logged_VethCreate, logged_Move, loggedStep_apply,
    List.nil_append]
  rcases h1 : bc.Create configInput.BridgeName bridgeIP bridgeSubnet s with ⟨r1, s1⟩
  cases r1 with
  | error e1 =>
    exact ⟨1, by simp [stepOrder, StepEntry.step, StepEntry.err, StepCall.kind, StepResult.err,
      StepResult.ofError, StepResult.ofBridge, StepResult.ofVeths]⟩
  | ok bridge =>
    simp only
    rcases h2 : vc.Create configInput.VethNamePrefix s1 with ⟨r2, s2⟩
    cases r2 with
    | error e2 =>
      exact ⟨2, by simp [stepOrder, StepEntry.step, StepEntry.err, StepCall.kind,
        StepResult.err, StepResult.ofError, StepResult.ofBridge, StepResult.ofVeths]⟩
    | ok veths =>
      obtain ⟨hostVeth, containerVeth⟩ := veths
      simp only
      rcases h3 : bc.Attach bridge hostVeth s2 with ⟨r3, s3⟩
      cases r3 with
      | some e3 =>
        exact ⟨3, by simp [stepOrder, StepEntry.step, StepEntry.err, StepCall.kind,
          StepResult.err, StepResult.ofError, StepResult.ofBridge, StepResult.ofVeths]⟩
      | none =>
        simp only
        rcases h4 : vc.MoveToNetworkNamespace containerVeth configInput.Pid s3 with ⟨r4, s4⟩
        cases r4 with
        | some e4 =>
          exact ⟨4, by simp [stepOrder, StepEntry.step, StepEntry.err, StepCall.kind,
            StepResult.err, StepResult.ofError, StepResult.ofBridge, StepResult.ofVeths]⟩
        | none =>
          simp only
          rcases h5 : cc ⟨configInput.BridgeName, bridgeIP, containerIP, bridgeSubnet,
            configInput.VethNamePrefix⟩ configInput.Pid s4 with ⟨r5, s5⟩
          cases r5 with
          | some e5 =>
            exact ⟨5, by simp [stepOrder, StepEntry.step, StepEntry.err, StepCall.kind,
              StepResult.err, StepResult.ofError, StepResult.ofBridge, StepResult.ofVeths]⟩
          | none =>
            exact ⟨5, by simp [stepOrder, StepEntry.step, StepEntry.err, StepCall.kind,
              StepResult.err, StepResult.ofError, StepResult.ofBridge, StepResult.ofVeths]⟩

/-! ## `WaitForNetwork` -/

theorem loop_skip {σ : Type} (net : Net σ) (t0 : Int) :
    ∀ (k : Nat) (s : σ) (n : Nat), (∀ j < k, pollContinues net t0 (pollState net s j)) →
      WaitForNetwork.loop net t0 (k + n) s = WaitForNetwork.loop net t0 n (pollState net s k) := by
  intro k
  induction k with
  | zero =>
    intro s n _
    simp [pollState]
  | succ k ih =>
    intro s n h
    obtain ⟨l, hl, hlen, hnow⟩ := h 0 (Nat.succ_pos k)
    simp only [pollState, Function.iterate_zero, id_eq] at hl hnow
    have hstep : WaitForNetwork.loop net t0 (k + n + 1) s
        = WaitForNetwork.loop net t0 (k + n) (net.Sleep checkInterval (net.Interfaces s).2) := by
      rw [WaitForNetwork.loop]
      rcases hi : net.Interfaces s with ⟨r, s1⟩
      rw [hi] at hl hnow
      simp only at hl hnow
      subst hl
      simp only
      rw [if_neg (by omega), if_neg (by omega)]
    have hk : k + 1 + n = k + n + 1 := by omega
    rw [hk, hstep, ih (net.Sleep checkInterval (net.Interfaces s).2) n]
    · simp [pollState, Function.iterate_succ]
    · intro j hj
      have := h (j + 1) (by omega)
      simpa [pollState, Function.iterate_succ] using this

theorem loop_nil_only_after_many {σ : Type} (net : Net σ) (t0 : Int) :
    ∀ (fuel : Nat) (s s1 : σ), WaitForNetwork.loop net t0 fuel s = some (none, s1) →
      ∃ s0 l, net.Interfaces s0 = (.ok l, s1) ∧ l.length > 1 := by
  intro fuel
  induction fuel with
  | zero =>
    intro s s1 h
    simp [WaitForNetwork.loop] at h
  | succ fuel ih =>
    intro s s1 h
    rw [WaitForNetwork.loop] at h
    rcases hi : net.Interfaces s with ⟨r, s2⟩
    rw [hi] at h
    cases r with
    | error e => simp at h
    | ok l =>
      simp only at h
      split at h
      · rename_i hlen
        simp only [Option.some.injEq, Prod.mk.injEq, true_and] at h
        subst h
        exact ⟨s, l, hi, hlen⟩
      · split at h
        · simp at h
        · exact ih _ _ h

theorem loop_returns {σ : Type} (net : Net σ) (t0 : Int)
    (hlist : ∀ s, net.Now (net.Interfaces s).2 ≥ net.Now s)
    (hsleep : ∀ s, net.Now (net.Sleep checkInterval s) ≥ net.Now s + checkInterval) :
    ∀ (fuel : Nat) (s : σ), net.Now s - t0 + (fuel : Int) * Second > maxWait →
      ∃ r, WaitForNetwork.loop net t0 (fuel + 1) s = some r := by
  intro fuel
  induction fuel with
  | zero =>
    intro s h
    rw [WaitForNetwork.loop]
    have h1 := hlist s
    rcases hi : net.Interfaces s with ⟨r, s2⟩
    rw [hi] at h1
    cases r with
    | error e => exact ⟨_, rfl⟩
    | ok l =>
      simp only
      split
      · exact ⟨_, rfl⟩
      · rw [if_pos (by simp only [Nat.cast_zero, zero_mul, add_zero] at h; simp only at h1; omega)]
        exact ⟨_, rfl⟩
  | succ fuel ih =>
    intro s h
    rw [WaitForNetwork.loop]
    have h1 := hlist s
    rcases hi : net.Interfaces s with ⟨r, s2⟩
    rw [hi] at h1
    cases r with
    | error e => exact ⟨_, rfl⟩
    | ok l =>
      simp only
      split
      · exact ⟨_, rfl⟩
      · split
        · exact ⟨_, rfl⟩
        · apply ih
          have h2 : net.Now (net.Sleep checkInterval s2) ≥ net.Now s2 + Second := hsleep s2
          simp only at h1
          push_cast at h
          linarith

/-- C3: let poll `k` be reached, that is, every earlier poll listed at most
one interface without error and found no more than 3 s elapsed.  Then, with
enough polls allowed, `WaitForNetwork` returns at poll `k` the listing error if
the listing fails, `nil` if the listing has more than one interface, and the
timeout error if the listing has at most one interface and more than 3 s have
elapsed since the start.  Whenever it returns `nil`, the listing it returned
after had more than one interface.  On a clock that does not run backwards
while the interfaces are listed and advances by at least the check interval of
1 s over each sleep, five polls are always enough for it to return. -/
theorem WaitForNetwork_polls {σ : Type} (net : Net σ) (s : σ) (k fuel : Nat) (hfuel : k < fuel)
    (hreach : ∀ j < k, pollContinues net (net.Now s) (pollState net s j)) :
    (∀ e, (net.Interfaces (pollState net s k)).1 = .error e →
      WaitForNetwork net fuel s = some (some e, (net.Interfaces (pollState net s k)).2)) ∧
    (∀ l, (net.Interfaces (pollState net s k)).1 = .ok l → l.length > 1 →
      WaitForNetwork net fuel s = some (none, (net.Interfaces (pollState net s k)).2)) ∧
    (∀ l, (net.Interfaces (pollState net s k)).1 = .ok l → l.length ≤ 1 →
      net.Now (net.Interfaces (pollState net s k)).2 - net.Now s > maxWait →
      WaitForNetwork net fuel s
        = some (some waitTimeout, (net.Interfaces (pollState net s k)).2)) ∧
    (∀ s1, WaitForNetwork net fuel s = some (none, s1) →
      ∃ s0 l, net.Interfaces s0 = (.ok l, s1) ∧ l.length > 1) ∧
    ((∀ s0, net.Now (net.Interfaces s0).2 ≥ net.Now s0) →
     (∀ s0, net.Now (net.Sleep checkInterval s0) ≥ net.Now s0 + checkInterval) →
      ∃ r, WaitForNetwork net 5 s = some r) := by
  obtain ⟨n, rfl⟩ : ∃ n, fuel = k + (n + 1) := ⟨fuel - k - 1, by omega⟩
  have hskip := loop_skip net (net.Now s) k s (n + 1) hreach
  refine ⟨?_, ?_, ?_, ?_, ?_⟩
  · intro e he
    unfold WaitForNetwork
    simp only
    rw [hskip, WaitForNetwork.loop]
    rcases hi : net.Interfaces (pollState net s k) with ⟨r, s2⟩
    rw [hi] at he
    simp only at he
    subst he
    rfl
  · intro l hl hlen
    unfold WaitForNetwork
    simp only
    rw [hskip, WaitForNetwork.loop]
    rcases hi : net.Interfaces (pollState net s k) with ⟨r, s2⟩
    rw [hi] at hl
    simp only at hl
    subst hl
    simp [hlen]
  · intro l hl hlen hnow
    unfold WaitForNetwork
    simp only
    rw [hskip, WaitForNetwork.loop]
    rcases hi : net.Interfaces (pollState net s k) with ⟨r, s2⟩
    rw [hi] at hl hnow
    simp only at hl hnow
    subst hl
    simp only
    rw [if_neg (by omega), if_pos hnow]
    rfl
  · intro s1 h
    exact loop_nil_only_after_many net (net.Now s) _ s s1 h
  · intro hlist hsleep
    unfold WaitForNetwork
    simp only
    apply loop_returns net (net.Now s) hlist hsleep 4 s
    simp [maxWait, Second]

/-- Witness of C3: the listing has one interface at the first poll and two at
the second; `WaitForNetwork` returns `nil` at the second poll. -/
theorem WaitForNetwork_polls_witness :
    WaitForNetwork (pollNet (fun k => if k = 0 then 1 else 2)) 5 0 = some (none, 1) :=
  (WaitForNetwork_polls (pollNet (fun k => if k = 0 then 1 else 2)) 0 1 5 (by decide)
    (by
      intro j hj
      have hj0 : j = 0 := by omega
      subst hj0
      exact ⟨[{ Index := 1, Name := "lo" }], rfl, by decide, by decide⟩)).2.1
    [{ Index := 1, Name := "lo" }, { Index := 1, Name := "lo" }] rfl (by decide)

/-- Witness of C10: on the kernel model the run of the input of `main` goes
through all five steps, in order; `Attach` is called with the bridge `brg0`
and the host end `veth0`, `MoveToNetworkNamespace` with the container end
`veth1` and the pid; afterwards `veth0` has the bridge as its master and
`veth1` is in the namespace of the process. -/
theorem SetNetwork_steps_in_order_witness :
    (loggedRun ParseCIDR (NewBridge simNet) (NewVeth simNet) (Container.Apply simNet)
      (mainInput 4242) world0).2.2.map StepEntry.step = stepOrder ∧
    (loggedRun ParseCIDR (NewBridge simNet) (NewVeth simNet) (Container.Apply simNet)
      (mainInput 4242) world0).2.2.map StepEntry.call =
      [StepCall.BridgeCreate "brg0" [10, 10, 10, 1]
         { IP := [10, 10, 10, 0], Mask := [255, 255, 255, 0] },
       StepCall.VethCreate "veth",
       StepCall.Attach { Index := 4, Name := "brg0" } { Index := 5, Name := "veth0" },
       StepCall.MoveToNetworkNamespace { Index := 6, Name := "veth1" } 4242,
       StepCall.ContainerApply mainConfig 4242] ∧
    (loggedRun ParseCIDR (NewBridge simNet) (NewVeth simNet) (Container.Apply simNet)
      (mainInput 4242) world0).2.1.devs.map (fun d => (d.Ns, d.Index, d.Name, d.Up, d.Master)) =
      [(0, 1, "lo", true, 0), (0, 2, "eth0", true, 0), (1, 3, "lo", false, 0),
       (0, 4, "brg0", true, 0), (0, 5, "veth0", true, 4), (1, 6, "veth1", true, 0)] := by
  refine ⟨?_, by decide, by decide⟩
  obtain ⟨k, _, _, hsteps, _, _, _, hk, _⟩ :=
    SetNetwork_steps_in_order ParseCIDR (NewBridge simNet) (NewVeth simNet)
      (Container.Apply simNet) (mainInput 4242) world0
      ⟨⟨([10, 10, 10, 1], { IP := [10, 10, 10, 0], Mask := [255, 255, 255, 0] }), by decide⟩,
       ⟨([10, 10, 10, 2], { IP := [10, 10, 10, 0], Mask := [255, 255, 255, 0] }), by decide⟩⟩
  have h5 : k = 5 := hk (by decide)
  subst h5
  simpa [stepOrder] using hsteps

/-! ## `Host.Apply`, run twice -/

/-- C1 fails on the code.  On the kernel model, with none of `brg0`, `veth0`,
`veth1` present and the process 4242 in a network namespace of its own, the
first `Host.Apply` succeeds: it creates the bridge and the veth pair, attaches
`veth0` to the bridge and moves `veth1` into the namespace of the process.
The second `Host.Apply` with the same arguments returns the error of
`net.InterfaceByName("veth1")`: `Veth.Create` finds `veth0`, takes the reuse
path and looks both ends up in the host namespace, where `veth1` no longer is.
It runs the bridge `Create` and the veth `Create` only; no attach and no move
is performed, and the machine is left as it was. -/
theorem Host_Apply_second_call_fails :
    world0.byName "brg0" = none ∧ world0.byName "veth0" = none ∧
    world0.byName "veth1" = none ∧
    (Host.Apply simHost mainConfig 4242 world0).1 = none ∧
    (Host.Apply simHost mainConfig 4242 world0).2.devs.map
        (fun d => (d.Ns, d.Name, d.Kind, d.Master)) =
      [(0, "lo", DevKind.other, 0), (0, "eth0", DevKind.other, 0), (1, "lo", DevKind.other, 0),
       (0, "brg0", DevKind.bridge, 0), (0, "veth0", DevKind.veth, 4),
       (1, "veth1", DevKind.veth, 0)] ∧
    Host.Apply simHost mainConfig 4242 (Host.Apply simHost mainConfig 4242 world0).2 =
      (some (GoError.text "route ip+net: no such network interface"),
       (Host.Apply simHost mainConfig 4242 world0).2) ∧
    (Host.Apply (NewHostConfigurer (NewBridge simNet).logged (NewVeth simNet).logged) mainConfig
        4242 ((Host.Apply simHost mainConfig 4242 world0).2, [])).2.2.map
        (fun e => (e.step, e.err)) =
      [(Step.BridgeCreate, none),
       (Step.VethCreate, some (GoError.text "route ip+net: no such network interface"))] := by
  refine ⟨by decide, by decide, by decide, by decide, by decide, by decide, by decide⟩

/-! ## `PrepareRootFs` -/

theorem stripPath_eq_some : ∀ (p q r : Path), stripPath p q = some r ↔ q = p ++ r := by
  intro p
  induction p with
  | nil =>
    intro q r
    simp [stripPath, eq_comm]
  | cons a p ih =>
    intro q r
    cases q with
    | nil => simp [stripPath]
    | cons b q =>
      simp only [stripPath, List.cons_append, List.cons.injEq]
      by_cases hab : a = b
      · simp [hab, ih q r]
      · simp [hab, Ne.symm hab]

theorem stripPath_eq_none_of_not_prefix (p q : Path) (h : ¬ p <+: q) : stripPath p q = none := by
  cases hs : stripPath p q with
  | none => rfl
  | some r => exact absurd ⟨r, ((stripPath_eq_some p q r).1 hs).symm⟩ h

/-- Path resolution reads only the locations strictly above the one resolved. -/
theorem checkDirs_congr (fs fs2 : FS) :
    ∀ (rest done : Path),
      (∀ i, i < rest.length → fs.node (done ++ rest.take i) = fs2.node (done ++ rest.take i)) →
      fs.checkDirs done rest = fs2.checkDirs done rest := by
  intro rest
  induction rest with
  | nil =>
    intro done _
    simp [FS.checkDirs]
  | cons c rest ih =>
    intro done h
    have h0 := h 0 (by simp)
    simp only [List.take_zero, List.append_nil] at h0
    have hrec : fs.checkDirs (done ++ [c]) rest = fs2.checkDirs (done ++ [c]) rest := by
      apply ih
      intro i hi
      have := h (i + 1) (by simpa using hi)
      simpa [List.take_succ_cons] using this
    simp only [FS.checkDirs, h0, hrec]

theorem take_not_prefixed (d : Path) (i : Nat) (hi : i < d.length) : ¬ d <+: d.take i := by
  intro h
  have := h.length_le
  simp only [List.length_take] at this
  omega

theorem removeAll_ok {fs fs2 : FS} {name : String} (h : fs.removeAll name = (none, fs2)) :
    (fs2 = fs ∧ (name = "" ∨ fs.checkDirs [] (pathOf name) = some Errno.ENOENT)) ∨
    (name ≠ "" ∧ endsWithDot name = false ∧ pathOf name ≠ [] ∧
      fs.checkDirs [] (pathOf name) = none ∧
      fs2 = fun q => if (pathOf name).isPrefixOf q then none else fs q) := by
  unfold FS.removeAll at h
  by_cases h1 : name = ""
  · simp only [h1, if_true, Prod.mk.injEq, true_and] at h
    exact Or.inl ⟨h.symm, Or.inl h1⟩
  · rw [if_neg h1] at h
    cases h2 : endsWithDot name with
    | true => simp [h2] at h
    | false =>
      simp only [h2, Bool.false_eq_true, if_false] at h
      by_cases h3 : pathOf name = []
      · simp [h3] at h
      · rw [if_neg h3] at h
        cases h4 : fs.checkDirs [] (pathOf name) with
        | none =>
          simp only [h4, Prod.mk.injEq, true_and] at h
          exact Or.inr ⟨h1, rfl, h3, rfl, h.symm⟩
        | some e =>
          rw [h4] at h
          split at h
          · rename_i heq
            simp only [Prod.mk.injEq, true_and] at h
            exact Or.inl ⟨h.symm, Or.inr (by rw [heq])⟩
          · simp at h
          · rename_i heq
            simp at heq

theorem mkdir_ok {fs fs2 : FS} {name : String} (h : fs.mkdir name = (none, fs2)) :
    fs.checkDirs [] (pathOf name) = none ∧ fs.node (pathOf name) = none ∧
      fs2 = fun q => if q = pathOf name then some Node.dir else fs q := by
  unfold FS.mkdir at h
  cases h1 : fs.checkDirs [] (pathOf name) with
  | some e => simp [h1] at h
  | none =>
    simp only [h1] at h
    by_cases h2 : fs.node (pathOf name) = none
    · simp only [h2, ne_eq, not_true_eq_false, if_false, Prod.mk.injEq, true_and] at h
      exact ⟨rfl, h2, h.symm⟩
    · simp [h2] at h

theorem runTar_ok {extract : List Nat → Option (List (Path × Node))} {fs fs2 : FS}
    {destDir srcTar : String}
    (h : FS.runTar extract fs ["tar", "-C", destDir, "-xf", srcTar] = (none, fs2)) :
    ∃ bytes members, fs.node (pathOf srcTar) = some (Node.file bytes) ∧
      extract bytes = some members ∧ fs2 = fs.writeMembers (pathOf destDir) members := by
  simp only [FS.runTar] at h
  split at h
  · split at h
    · rename_i bytes _ hnode
      split at h
      · rename_i members hex
        simp only [Prod.mk.injEq, true_and] at h
        exact ⟨bytes, members, hnode, hex, h.symm⟩
      · simp at h
    · simp at h
  · simp at h

/-- `PrepareRootFs` on the filesystem model, step by step. -/
theorem PrepareRootFs_fsOS (extract : List Nat → Option (List (Path × Node)))
    (imagePath dest : String) (fs : FS) :
    PrepareRootFs (fsOS extract) imagePath dest fs =
      (match fs.removeAll dest with
       | (some err, s) => (some err, s)
       | (none, s) =>
         match s.mkdir dest with
         | (some err, s) => (some err, s)
         | (none, s) =>
           if HasSuffix imagePath "tar" = true then
             FS.runTar extract s ["tar", "-C", dest, "-xf", imagePath]
           else
             (some (GoError.text ("Invalid tarBall name: %!d(string=" ++ imagePath ++ ")")), s)) := by
  unfold PrepareRootFs Untar
  rcases h1 : fs.removeAll dest with ⟨r1, s1⟩
  have e1 : (fsOS extract).RemoveAll dest fs = (r1, s1) := h1
  rw [e1]
  cases r1 with
  | some e => rfl
  | none =>
    simp only
    rcases h2 : s1.mkdir dest with ⟨r2, s2⟩
    have e2 : (fsOS extract).Mkdir dest 0o775 s1 = (r2, s2) := h2
    rw [e2]
    cases r2 with
    | some e => rfl
    | none =>
      have e3 : (fsOS extract).Start ["tar", "-C", dest, "-xf", imagePath] s2 = (none, s2) := rfl
      have e4 : (fsOS extract).Wait ["tar", "-C", dest, "-xf", imagePath] s2
          = FS.runTar extract s2 ["tar", "-C", dest, "-xf", imagePath] := rfl
      cases HasSuffix imagePath "tar" <;> simp [e3, e4]

/-- What a successful `PrepareRootFs` did on the filesystem model. -/
theorem PrepareRootFs_ok {extract : List Nat → Option (List (Path × Node))}
    {imagePath dest : String} {fs0 fs1 : FS}
    (h : PrepareRootFs (fsOS extract) imagePath dest fs0 = (none, fs1)) :
    ∃ bytes members,
      dest ≠ "" ∧ endsWithDot dest = false ∧ pathOf dest ≠ [] ∧
      fs0.checkDirs [] (pathOf dest) = none ∧
      fs0.removeAll dest
        = (none, fun q => if (pathOf dest).isPrefixOf q then none else fs0 q) ∧
      extract bytes = some members ∧
      (if pathOf imagePath = pathOf dest then some Node.dir
        else if (pathOf dest).isPrefixOf (pathOf imagePath) then none
        else fs0.node (pathOf imagePath)) = some (Node.file bytes) ∧
      fs1 = FS.writeMembers
        (fun q => if q = pathOf dest then some Node.dir
                  else if (pathOf dest).isPrefixOf q then none else fs0 q)
        (pathOf dest) members := by
  rw [PrepareRootFs_fsOS] at h
  rcases hra : fs0.removeAll dest with ⟨r1, fsa⟩
  rw [hra] at h
  cases r1 with
  | some e => simp at h
  | none =>
    simp only at h
    rcases hmk : fsa.mkdir dest with ⟨r2, fsb⟩
    rw [hmk] at h
    cases r2 with
    | some e => simp at h
    | none =>
      simp only at h
      cases hs : HasSuffix imagePath "tar" with
      | false => simp [hs] at h
      | true =>
        simp only [hs, if_true] at h
        obtain ⟨bytes, members, hnode, hex, hfs1⟩ := runTar_ok h
        obtain ⟨hcd, hfree, hfsb⟩ := mkdir_ok hmk
        have hne : pathOf dest ≠ [] := by
          intro h0
          simp [FS.node, h0] at hfree
        rcases removeAll_ok hra with ⟨hsame, hwhy⟩ | ⟨hn, hdot, _, hcd0, hfsa⟩
        · subst hsame
          rcases hwhy with hempty | henoent
          · subst hempty
            exact absurd (by decide) hne
          · rw [henoent] at hcd
            exact absurd hcd (by simp)
        · refine ⟨bytes, members, hn, hdot, hne, hcd0, ?_, hex, ?_, ?_⟩
          · rw [hfsa]
          · rw [← hnode, hfsb, hfsa]
            unfold FS.node
            by_cases hp : pathOf imagePath = pathOf dest
            · simp [hp, hne]
            · by_cases h0 : pathOf imagePath = []
              · have : (pathOf dest).isPrefixOf (pathOf imagePath) = false := by
                  rw [h0]
                  cases hd : pathOf dest with
                  | nil => exact absurd hd hne
                  | cons a t => rfl
                simp [hp, h0, this, Ne.symm hne, hne]
              · simp [hp, h0]
          · rw [hfs1, hfsb, hfsa]

/-- C7: on the filesystem model, with the members of an archive a function
`extract` of its bytes: when `PrepareRootFs` succeeds from a state `fs0` and
leaves `fs1`, a second call with the same arguments also succeeds and leaves
exactly `fs1` again (so the destination holds the same contents); and `fs1` has
a directory at the destination and, at every location below it, exactly the
member the archive has for that location and nothing where the archive has
none, whatever `fs0` held there. -/
theorem PrepareRootFs_idempotent (extract : List Nat → Option (List (Path × Node)))
    (imagePath dest : String) (fs0 fs1 : FS)
    (h : PrepareRootFs (fsOS extract) imagePath dest fs0 = (none, fs1)) :
    PrepareRootFs (fsOS extract) imagePath dest fs1 = (none, fs1) ∧
    ∃ bytes members,
      fs0.node (pathOf imagePath) = some (Node.file bytes) ∧
      extract bytes = some members ∧
      fs1 (pathOf dest) = some Node.dir ∧
      ∀ c rel, fs1 (pathOf dest ++ c :: rel) = members.lookup (c :: rel) := by
  obtain ⟨bytes, members, hn, hdot, hne, hcd0, hra, hex, himg, hfs1⟩ := PrepareRootFs_ok h
  have hagree : ∀ q, ¬ pathOf dest <+: q → fs1 q = fs0 q := by
    intro q hq
    have hq1 : q ≠ pathOf dest := by
      rintro rfl
      exact hq (List.prefix_refl _)
    have hq2 : (pathOf dest).isPrefixOf q = false := by
      cases hb : (pathOf dest).isPrefixOf q with
      | false => rfl
      | true => exact absurd (List.isPrefixOf_iff_prefix.1 hb) hq
    rw [hfs1]
    simp [FS.writeMembers, stripPath_eq_none_of_not_prefix _ _ hq, hq1, hq2]
  constructor
  · have hcd1 : fs1.checkDirs [] (pathOf dest) = none := by
      rw [← hcd0]
      apply checkDirs_congr
      intro i hi
      simp only [List.nil_append, FS.node]
      rw [hagree _ (take_not_prefixed _ i hi)]
    have hra1 : fs1.removeAll dest = fs0.removeAll dest := by
      rw [hra]
      unfold FS.removeAll
      rw [if_neg hn]
      simp only [hdot, Bool.false_eq_true, if_false]
      rw [if_neg hne, hcd1]
      simp only [Prod.mk.injEq, true_and]
      funext q
      by_cases hq : (pathOf dest).isPrefixOf q = true
      · simp [hq]
      · have hq2 : ¬ pathOf dest <+: q := fun hp => hq (List.isPrefixOf_iff_prefix.2 hp)
        simp [hq, hagree q hq2]
    rw [PrepareRootFs_fsOS, hra1, ← PrepareRootFs_fsOS, h]
  · refine ⟨bytes, members, ?_, hex, ?_, ?_⟩
    · by_cases hp : pathOf imagePath = pathOf dest
      · simp [hp] at himg
      · rw [if_neg hp] at himg
        by_cases hp2 : (pathOf dest).isPrefixOf (pathOf imagePath) = true
        · simp [hp2] at himg
        · rw [if_neg hp2] at himg
          exact himg
    · rw [hfs1]
      have : stripPath (pathOf dest) (pathOf dest) = some [] :=
        (stripPath_eq_some _ _ _).2 (by simp)
      simp [FS.writeMembers, this]
    · intro c rel
      rw [hfs1]
      have hs : stripPath (pathOf dest) (pathOf dest ++ c :: rel) = some (c :: rel) :=
        (stripPath_eq_some _ _ _).2 rfl
      have hpre : (pathOf dest).isPrefixOf (pathOf dest ++ c :: rel) = true :=
        List.isPrefixOf_iff_prefix.2 (List.prefix_append _ _)
      simp only [FS.writeMembers, hs]
      cases hl : List.lookup (c :: rel) members with
      | some n => rfl
      | none => simp [hpre]

/-- Witness of C7: staging `/c/images/busybox.tar` at `/c/rootfs/test1` twice. -/
theorem PrepareRootFs_idempotent_witness :
    PrepareRootFs (fsOS extractDemo) "/c/images/busybox.tar" "/c/rootfs/test1"
        (PrepareRootFs (fsOS extractDemo) "/c/images/busybox.tar" "/c/rootfs/test1" fsDemo).2 =
      (none,
       (PrepareRootFs (fsOS extractDemo) "/c/images/busybox.tar" "/c/rootfs/test1" fsDemo).2) :=
  (PrepareRootFs_idempotent extractDemo "/c/images/busybox.tar" "/c/rootfs/test1" fsDemo
    (PrepareRootFs (fsOS extractDemo) "/c/images/busybox.tar" "/c/rootfs/test1" fsDemo).2
    (Prod.ext (by decide) rfl)).1

end Containerization
